import Mathlib

/-!
# Verification of dwarflint (`src/dwarflint.c`)

A shallow embedding of the structural-integrity checker pipeline of
`dwarflint.c`: the bounds-checked byte reader with LEB128 decoding, the
message taxonomy and filter, the abbreviation-table loader, the DIE walker,
and the section-level drivers.  Machine integers are modelled as `Nat`
(with explicit `% 2^64` where the C code can wrap), pointers as indices
into the byte list, and out-parameter/boolean-status C functions as
`Option`-returning Lean functions.
-/

namespace Dwarflint

/-! ## DWARF constants

Values from the DWARF standard (the C file includes them from
`libdw/dwarf.h`, which is outside the checked sources). -/

def DW_TAG_hi_user : Nat := 0xffff
def DW_AT_sibling : Nat := 0x01
def DW_AT_hi_user : Nat := 0x3fff
def DW_CHILDREN_no : Nat := 0
def DW_CHILDREN_yes : Nat := 1

def DW_FORM_addr : Nat := 0x01
def DW_FORM_block2 : Nat := 0x03
def DW_FORM_block4 : Nat := 0x04
def DW_FORM_data2 : Nat := 0x05
def DW_FORM_data4 : Nat := 0x06
def DW_FORM_data8 : Nat := 0x07
def DW_FORM_string : Nat := 0x08
def DW_FORM_block : Nat := 0x09
def DW_FORM_block1 : Nat := 0x0a
def DW_FORM_data1 : Nat := 0x0b
def DW_FORM_flag : Nat := 0x0c
def DW_FORM_sdata : Nat := 0x0d
def DW_FORM_strp : Nat := 0x0e
def DW_FORM_udata : Nat := 0x0f
def DW_FORM_ref_addr : Nat := 0x10
def DW_FORM_ref1 : Nat := 0x11
def DW_FORM_ref2 : Nat := 0x12
def DW_FORM_ref4 : Nat := 0x13
def DW_FORM_ref8 : Nat := 0x14
def DW_FORM_ref_udata : Nat := 0x15
def DW_FORM_indirect : Nat := 0x16

/-- Modelled from the spec: the 32-bit length-word escape range of
`read_size_extra` (`s32 ∈ [0xFFFFFF00, 0xFFFFFFFE]` reports an
unrecognized escape; `0xFFFFFFFF` switches to DWARF64).  The C constants
live in `libdw/libdwP.h`, outside the checked sources. -/
def DWARF3_LENGTH_MIN_ESCAPE_CODE : Nat := 0xffffff00

def DWARF3_LENGTH_64_BIT : Nat := 0xffffffff

/-! ## Bounds-checked reader (`struct read_ctx`)

`data` is the underlying byte buffer; `beg`/`endp`/`ptr` are the
`begin`/`end`/`ptr` pointers, as indices into `data`.  `be` is the
byte order taken from the `Dwarf *dbg` handle. -/

structure ReadCtx where
  data : List Nat
  be : Bool
  beg : Nat
  endp : Nat
  ptr : Nat
deriving Repr, DecidableEq

/-- The byte a pointer dereferences.  Memory bytes are always `< 256`. -/
def byteAt (ctx : ReadCtx) (i : Nat) : Nat := ctx.data.getD i 0 % 256

def read_ctx_get_offset (ctx : ReadCtx) : Nat := ctx.ptr - ctx.beg

/-- `read_ctx_need_data`: `ptr + length ≤ end` (the C no-wrap side
condition on `ptr + length` is vacuous over `Nat`). -/
def read_ctx_need_data (ctx : ReadCtx) (length : Nat) : Bool :=
  ctx.ptr + length ≤ ctx.endp

def read_ctx_read_ubyte (ctx : ReadCtx) : Option (ReadCtx × Nat) :=
  if read_ctx_need_data ctx 1 then
    some ({ ctx with ptr := ctx.ptr + 1 }, byteAt ctx ctx.ptr)
  else none

/-- `read_N ubyte_unaligned` of libdw (outside the checked sources):
combine `n` bytes at `ptr` according to the byte order. -/
def read_word (ctx : ReadCtx) (n : Nat) : Nat :=
  if ctx.be then
    (List.range n).foldl (fun acc i => acc * 256 + byteAt ctx (ctx.ptr + i)) 0
  else
    (List.range n).foldl (fun acc i => acc * 256 + byteAt ctx (ctx.ptr + (n - 1 - i))) 0

def read_ctx_read_2ubyte (ctx : ReadCtx) : Option (ReadCtx × Nat) :=
  if read_ctx_need_data ctx 2 then
    some ({ ctx with ptr := ctx.ptr + 2 }, read_word ctx 2)
  else none

def read_ctx_read_4ubyte (ctx : ReadCtx) : Option (ReadCtx × Nat) :=
  if read_ctx_need_data ctx 4 then
    some ({ ctx with ptr := ctx.ptr + 4 }, read_word ctx 4)
  else none

def read_ctx_read_8ubyte (ctx : ReadCtx) : Option (ReadCtx × Nat) :=
  if read_ctx_need_data ctx 8 then
    some ({ ctx with ptr := ctx.ptr + 8 }, read_word ctx 8)
  else none

def read_ctx_read_offset (ctx : ReadCtx) (dwarf64 : Bool) : Option (ReadCtx × Nat) :=
  if dwarf64 then read_ctx_read_8ubyte ctx else read_ctx_read_4ubyte ctx

def read_ctx_read_var (ctx : ReadCtx) (width : Nat) : Option (ReadCtx × Nat) :=
  if width = 4 ∨ width = 8 then read_ctx_read_offset ctx (width = 8)
  else if width = 2 then read_ctx_read_2ubyte ctx
  else if width = 1 then read_ctx_read_ubyte ctx
  else none

def read_ctx_skip (ctx : ReadCtx) (len : Nat) : Option ReadCtx :=
  if read_ctx_need_data ctx len then some { ctx with ptr := ctx.ptr + len }
  else none

def read_ctx_eof (ctx : ReadCtx) : Bool := !read_ctx_need_data ctx 1

/-! ## LEB128 decoding

`read_ctx_read_uleb128` / `read_ctx_read_sleb128` return the advanced
context and `none` for status `-1`, or `some (zero_tail, value)` which
stands for status `1`/`0` according to `zero_tail`.  The fuel argument
only bounds the loop; the callers pass `endp - ptr + 1`, which the loop
(consuming one byte per iteration) can never exhaust. -/

def read_ctx_read_uleb128_go : Nat → ReadCtx → Nat → Nat → ReadCtx × Option (Bool × Nat)
  | 0, ctx, _, _ => (ctx, none)
  | fuel + 1, ctx, result, shift =>
    match read_ctx_read_ubyte ctx with
    | none => (ctx, none)
    | some (ctx1, byte) =>
      let payload := byte % 128
      let zero_tail : Bool := decide (payload = 0) && decide (0 < shift)
      let result1 := (result ||| (payload <<< shift)) % 2 ^ 64
      let shift1 := shift + 7
      if 64 < shift1 then (ctx1, none)
      else if byte &&& 128 = 0 then (ctx1, some (zero_tail, result1))
      else read_ctx_read_uleb128_go fuel ctx1 result1 shift1

def read_ctx_read_uleb128 (ctx : ReadCtx) : ReadCtx × Option (Bool × Nat) :=
  read_ctx_read_uleb128_go (ctx.endp - ctx.ptr + 1) ctx 0 0

/-- The `int` status of a LEB128 read: `-1` failure, `1` bloat, `0` clean. -/
def leb_status (r : ReadCtx × Option (Bool × Nat)) : Int :=
  match r.2 with
  | none => -1
  | some (zt, _) => if zt then 1 else 0

/-- Two's-complement value of a 64-bit pattern, for the `int64_t *ret`
out-parameter of `read_ctx_read_sleb128`. -/
def toInt64 (n : Nat) : Int :=
  if n % 2 ^ 64 < 2 ^ 63 then (n % 2 ^ 64 : Int) else (n % 2 ^ 64 : Int) - 2 ^ 64

def read_ctx_read_sleb128_go : Nat → ReadCtx → Nat → Nat → Bool → ReadCtx × Option (Bool × Nat)
  | 0, ctx, _, _, _ => (ctx, none)
  | fuel + 1, ctx, result, shift, sign =>
    match read_ctx_read_ubyte ctx with
    | none => (ctx, none)
    | some (ctx1, byte) =>
      let payload := byte % 128
      let zero_tail : Bool :=
        decide (0 < shift) &&
          ((decide (payload = 0x7f) && sign) || (decide (payload = 0) && !sign))
      let sign1 : Bool := decide (byte &&& 0x40 ≠ 0)
      let result1 := (result ||| (payload <<< shift)) % 2 ^ 64
      let shift1 := shift + 7
      if byte &&& 128 = 0 then
        (ctx1, some (zero_tail,
          if shift1 < 64 && sign1 then result1 ||| (2 ^ 64 - 2 ^ shift1) else result1))
      else if 64 < shift1 then (ctx1, none)
      else read_ctx_read_sleb128_go fuel ctx1 result1 shift1 sign1

def read_ctx_read_sleb128 (ctx : ReadCtx) : ReadCtx × Option (Bool × Nat) :=
  read_ctx_read_sleb128_go (ctx.endp - ctx.ptr + 1) ctx 0 0 false

/-! ## Message taxonomy and filter (`enum message_category`, `vmessage`, …) -/

def mc_none : Nat := 0
def mc_impact_1 : Nat := 0x1
def mc_impact_2 : Nat := 0x2
def mc_impact_3 : Nat := 0x4
def mc_impact_4 : Nat := 0x8
def mc_impact_all : Nat := 0xf
def mc_acc_bloat : Nat := 0x10
def mc_acc_suboptimal : Nat := 0x20
def mc_acc_all : Nat := 0x30
def mc_error : Nat := 0x40
def mc_leb128 : Nat := 0x100
def mc_abbrevs : Nat := 0x200
def mc_die_rel_sib : Nat := 0x1000
def mc_die_rel_child : Nat := 0x2000
def mc_die_rel_ref : Nat := 0x4000
def mc_die_rel_all : Nat := 0x7000
def mc_die_other : Nat := 0x8000
def mc_die_all : Nat := 0xf000
def mc_strings : Nat := 0x10000
def mc_aranges : Nat := 0x20000
def mc_elf : Nat := 0x40000
def mc_pubnames : Nat := 0x80000
def mc_other : Nat := 0x100000
def mc_all : Nat := 0xffff00

structure MessageCriteria where
  accept : Nat
  reject : Nat
deriving Repr, DecidableEq

def accept_message (crit : MessageCriteria) (cat : Nat) : Bool :=
  (crit.accept &&& cat) ≠ 0 && (crit.reject &&& cat) = 0

/-- The constant `error_criteria = {mc_impact_4 | mc_error, mc_none}`
(never modified by the program). -/
def error_criteria : MessageCriteria := ⟨mc_impact_4 ||| mc_error, mc_none⟩

/-- The initial value of the mutable global `warning_criteria =
{mc_all & ~mc_strings, mc_none}` (`mc_strings ⊆ mc_all`, so the xor is
the C bit-clear). -/
def default_warning_criteria : MessageCriteria := ⟨mc_all ^^^ mc_strings, mc_none⟩

/-- One constructor per diagnostic call site of the embedded functions
(the printf arguments, which no claim depends on, are dropped). -/
inductive MsgId where
  | lebCantRead | lebBloat
  | padding0 | paddingN0
  | abbrevInvalidTag | abbrevCantReadChildren | abbrevInvalidChildren
  | abbrevInvalidAttrName | abbrevInvalidAttrForm
  | abbrevSibDuplicate | abbrevSibChildless | abbrevSibFormRefAddr | abbrevSibFormBad
  | noAbbrevData | noInfoOrStrData | noArangesData | noPubnamesData
  | cuCantReadLength | sizeExtraCantRead64 | sizeExtraBadEscape
  | cuNotEnoughData | cuLengthTooSmall | infoLengthsMismatch
  | versionCantRead | versionBad | version64v2
  | cuCantReadAbbrevOffset | cuCantReadAddressSize | cuInvalidAddressSize
  | cuAbbrevNotFound | abbrevUnused
  | dieLastSiblingHasSibling | dieSiblingMismatch | dieChildrenNoSibling
  | dieChainNotTerminated | dieUnknownAbbrevCode | dieCantReadAttrValue
  | dieStrpNoDebugStr | dieStrpOutOfBounds
  | dieInvalidIndirectForm | dieSibIndirectRefAddr | dieSibIndirectBadForm
  | dieIndirectAgain | dieUnhandledForm | dieChainEmptyChildren | dieChainEndedSibling
  | refOutsideCU | dieUnresolvedRef | dieUnresolvedGlobalRef | dieLocalRefAsGlobal
  | arCantReadLength | arCantReadCuOffset | arUnresolvedCU
  | arCantReadAddrSize | arInvalidAddrSize | arCantReadSegSize | arSegSizeUnsupported
  | arEndsBeforeEntry | arNonzeroPadding | arCantReadAddress | arCantReadTupleLength
  | pnCantReadLength | pnCantReadVersion | pnCantReadCuOffset | pnUnresolvedCU
  | pnCantReadCuLength | pnLengthMismatch | pnCantReadOffsetField | pnUnresolvedDie
  | pnCantReadName
deriving Repr, DecidableEq

/-- The process-wide mutable state: the filter (`warning_criteria`), the
error counter, and the printed output (modelled as the ordered list of
printed messages, each tagged with `true` for `error: ` / `false` for
`warning: ` prefixes). -/
structure DwState where
  warningCriteria : MessageCriteria
  errorCount : Nat
  log : List (Bool × MsgId)
deriving Repr, DecidableEq

def verror (id : MsgId) (st : DwState) : DwState :=
  { st with log := st.log ++ [(true, id)], errorCount := st.errorCount + 1 }

/-- `vwarning` prints with a `warning: ` prefix and — like `verror` —
increments the global `error_count`. -/
def vwarning (id : MsgId) (st : DwState) : DwState :=
  { st with log := st.log ++ [(false, id)], errorCount := st.errorCount + 1 }

def vmessage (cat : Nat) (id : MsgId) (st : DwState) : DwState :=
  if accept_message st.warningCriteria cat then
    if accept_message error_criteria cat then verror id st else vwarning id st
  else st

def wr_error (id : MsgId) (st : DwState) : DwState := verror id st

def wr_warning (id : MsgId) (st : DwState) : DwState := vwarning id st

def message (cat : Nat) (id : MsgId) (st : DwState) : DwState := vmessage cat id st

def check_category (st : DwState) (cat : Nat) : Bool :=
  accept_message st.warningCriteria cat

def format_padding_message (cat : Nat) (id : MsgId) (st : DwState) : DwState :=
  if accept_message st.warningCriteria cat then message cat id st else st

def vmessage_padding_0 (cat : Nat) (st : DwState) : DwState :=
  format_padding_message (cat ||| mc_acc_bloat ||| mc_impact_1) .padding0 st

def message_padding_0 (cat : Nat) (st : DwState) : DwState :=
  vmessage_padding_0 cat st

def message_padding_n0 (cat : Nat) (st : DwState) : DwState :=
  format_padding_message (cat ||| mc_acc_bloat ||| mc_impact_2) .paddingN0 st

def format_leb128_message (s : Int) (st : DwState) : DwState :=
  let cat := mc_leb128 ||| mc_acc_bloat ||| mc_impact_3
  if s = 0 ∨ (0 < s ∧ ¬accept_message st.warningCriteria cat) then st
  else if s < 0 then wr_error .lebCantRead st
  else message cat .lebBloat st

/-- `checked_read_uleb128`: the raw read plus its diagnostic; the
value is `some` exactly when the C function returns `true` (`st ≥ 0`). -/
def checked_read_uleb128 (ctx : ReadCtx) (st : DwState) : ReadCtx × Option Nat × DwState :=
  let r := read_ctx_read_uleb128 ctx
  (r.1, r.2.map (·.2), format_leb128_message (leb_status r) st)

def checked_read_sleb128 (ctx : ReadCtx) (st : DwState) : ReadCtx × Option Nat × DwState :=
  let r := read_ctx_read_sleb128 ctx
  (r.1, r.2.map (·.2), format_leb128_message (leb_status r) st)

/-! ## Abbreviations (`struct abbrev`, `struct abbrev_table`) -/

structure AbbrevAttrib where
  offset : Nat
  name : Nat
  form : Nat
deriving Repr, DecidableEq

structure Abbrev where
  code : Nat
  tag : Nat
  has_children : Bool
  used : Bool
  attribs : List AbbrevAttrib
deriving Repr, DecidableEq

/-- One table; the chain `struct abbrev_table *next` is a `List`, with
the head being the most recently allocated table (tables are prepended:
`section->next = section_chain; section_chain = section`). -/
structure AbbrevTable where
  offset : Nat
  abbr : List Abbrev
deriving Repr, DecidableEq

def attrib_form_valid (form : Nat) : Bool :=
  0 < form && form ≤ DW_FORM_indirect

def check_sibling_form (form : Nat) : Int :=
  if form = DW_FORM_indirect ∨ form = DW_FORM_ref1 ∨ form = DW_FORM_ref2
      ∨ form = DW_FORM_ref4 ∨ form = DW_FORM_ref8 ∨ form = DW_FORM_ref_udata then 0
  else if form = DW_FORM_ref_addr then -1
  else -2

/-- Truncation of a `Nat` bit pattern to a signed 32-bit `int`
(the implicit `uint64_t → int` conversion in `cmp_abbrs`). -/
def toInt32 (n : Nat) : Int :=
  if n % 2 ^ 32 < 2 ^ 31 then (n % 2 ^ 32 : Int) else (n % 2 ^ 32 : Int) - 2 ^ 32

/-- Wrapping `uint64_t` subtraction. -/
def usub64 (a b : Nat) : Nat := (a % 2 ^ 64 + (2 ^ 64 - b % 2 ^ 64)) % 2 ^ 64

/-- `cmp_abbrs`: `return aa->code - bb->code;` — a `uint64_t`
difference implicitly converted to `int`. -/
def cmp_abbrs (a b : Abbrev) : Int := toInt32 (usub64 a.code b.code)

/-- One insertion step of the comparator sort. -/
def insert_by_cmp (a : Abbrev) : List Abbrev → List Abbrev
  | [] => [a]
  | b :: l => if cmp_abbrs b a ≤ 0 then b :: insert_by_cmp a l else a :: b :: l

/-- Model of `qsort (section->abbr, …, cmp_abbrs)`: a stable
comparator sort (glibc qsort is a merge sort), as insertion sort
driven by `cmp_abbrs`. -/
def sort_abbrevs (l : List Abbrev) : List Abbrev :=
  l.foldl (fun acc a => insert_by_cmp a acc) []

/-- `abbrev_table_find_abbrev`'s binary search, returning the index of
the match (the C function returns a pointer into `abbrevs->abbr`). -/
def abbrev_find_go : Nat → List Abbrev → Nat → Nat → Nat → Option Nat
  | 0, _, _, _, _ => none
  | fuel + 1, abbr, code, a, b =>
    if a < b then
      let i := (a + b) / 2
      let ab := (abbr.getD i ⟨0, 0, false, false, []⟩)
      if code < ab.code then abbrev_find_go fuel abbr code a i
      else if ab.code < code then abbrev_find_go fuel abbr code (i + 1) b
      else some i
    else none

def abbrev_table_find_abbrev (abbrevs : AbbrevTable) (code : Nat) : Option Nat :=
  abbrev_find_go (abbrevs.abbr.length + 1) abbrevs.abbr code 0 abbrevs.abbr.length

/-! ### The abbreviation loader (`abbrev_table_load`) -/

/-- Result of the inner code-scanning loop of `abbrev_table_load`
(the `while` loop that skips a run of zero codes). -/
inductive ScanRes where
  /-- `checked_read_uleb128` failed: `goto free_and_out`. -/
  | fail (st : DwState)
  /-- The loop condition `!read_ctx_eof` failed before a nonzero code. -/
  | noCode (ctx : ReadCtx) (st : DwState) (zeroSeen : Bool) (zseq : Option Nat)
  /-- A nonzero code was read at `off`. -/
  | gotCode (ctx : ReadCtx) (st : DwState) (code off : Nat) (zeroSeen : Bool)
      (zseq : Option Nat)
deriving Repr

/-- The inner code-reading loop.  `prevOff`/`prevCode` start at
`(uint64_t) -1`; `zseq` models `zero_seq_off` (`none` is `(uint64_t) -1`);
`zeroSeen` records whether `section = NULL` was executed. -/
def abbrev_scan : Nat → ReadCtx → DwState → Nat → Nat → Option Nat → Bool → ScanRes
  | 0, _, st, _, _, _, _ => .fail st
  | fuel + 1, ctx, st, prevOff, prevCode, zseq, zeroSeen =>
    if read_ctx_eof ctx then .noCode ctx st zeroSeen zseq
    else
      let off := read_ctx_get_offset ctx
      match checked_read_uleb128 ctx st with
      | (_, none, st1) => .fail st1
      | (ctx1, some code, st1) =>
        let zseq1 := if code = 0 ∧ prevCode = 0 ∧ zseq = none then some prevOff else zseq
        if code ≠ 0 then .gotCode ctx1 st1 code off zeroSeen zseq1
        else abbrev_scan fuel ctx1 st1 off 0 zseq1 true

/-- The attribute-reading `do … while (!null_attrib)` loop of one
abbreviation.  Returns `none` on `goto free_and_out`, together with the
message state at that point.  `sibAttr` models `sibling_attr`. -/
def abbrev_attribs_go :
    Nat → ReadCtx → DwState → Bool → Nat → List AbbrevAttrib →
    DwState × Option (ReadCtx × List AbbrevAttrib)
  | 0, _, st, _, _, _ => (st, none)
  | fuel + 1, ctx, st, hasChildren, sibAttr, acc =>
    let attr_off := read_ctx_get_offset ctx
    match checked_read_uleb128 ctx st with
    | (_, none, st1) => (st1, none)
    | (ctx1, some name, st1) =>
      match checked_read_uleb128 ctx1 st1 with
      | (_, none, st2) => (st2, none)
      | (ctx2, some form, st2) =>
        let null_attrib := name = 0 ∧ form = 0
        if ¬null_attrib ∧ DW_AT_hi_user < name then
          (wr_error .abbrevInvalidAttrName st2, none)
        else if ¬null_attrib ∧ ¬attrib_form_valid form then
          (wr_error .abbrevInvalidAttrForm st2, none)
        else
          -- the attribute record is appended in every iteration,
          -- including the (0, 0) terminator
          let acc1 := acc ++ [⟨attr_off, name, form⟩]
          let (st3, sibAttr1) :=
            if name = DW_AT_sibling then
              let (st3a, sib1) :=
                if sibAttr ≠ 0 then (wr_error .abbrevSibDuplicate st2, sibAttr)
                else
                  (if ¬hasChildren then
                      message (mc_die_rel_sib ||| mc_acc_bloat ||| mc_impact_1)
                        .abbrevSibChildless st2
                    else st2, attr_off)
              let st3b :=
                if check_sibling_form form = -1 then
                  message (mc_die_rel_sib ||| mc_impact_2) .abbrevSibFormRefAddr st3a
                else if check_sibling_form form = -2 then
                  wr_error .abbrevSibFormBad st3a
                else st3a
              (st3b, sib1)
            else (st2, sibAttr)
          if null_attrib then (st3, some (ctx2, acc1))
          else abbrev_attribs_go fuel ctx2 st3 hasChildren sibAttr1 acc1

/-- The body of one outer-loop pass of `abbrev_table_load`, after a
nonzero abbreviation code has been read: tag, has_children, attributes.
Returns the parsed `Abbrev` or `none` for `goto free_and_out`. -/
def abbrev_parse_one (fuel : Nat) (ctx : ReadCtx) (st : DwState) (code : Nat) :
    DwState × Option (ReadCtx × Abbrev) :=
  match checked_read_uleb128 ctx st with
  | (_, none, st1) => (st1, none)
  | (ctx1, some tag, st1) =>
    if DW_TAG_hi_user < tag then (wr_error .abbrevInvalidTag st1, none)
    else
      match read_ctx_read_ubyte ctx1 with
      | none => (wr_error .abbrevCantReadChildren st1, none)
      | some (ctx2, has_children) =>
        if has_children ≠ DW_CHILDREN_no ∧ has_children ≠ DW_CHILDREN_yes then
          (wr_error .abbrevInvalidChildren st1, none)
        else
          match abbrev_attribs_go fuel ctx2 st1 (has_children = DW_CHILDREN_yes) 0 [] with
          | (st2, none) => (st2, none)
          | (st2, some (ctx3, attribs)) =>
            (st2, some (ctx3, ⟨code, tag, has_children = DW_CHILDREN_yes, false, attribs⟩))

/-- Append a parsed abbreviation to the open table (the chain head). -/
def chain_append_abbrev (chain : List AbbrevTable) (ab : Abbrev) : List AbbrevTable :=
  match chain with
  | [] => []
  | t :: r => { t with abbr := t.abbr ++ [ab] } :: r

/-- The outer loop of `abbrev_table_load`.  `sectionOpen` models
`section != NULL` (the open table is the chain head).  Returns the
chain in allocation order (head = newest) or `none` for
`free_and_out`. -/
def abbrev_table_load_go :
    Nat → ReadCtx → DwState → List AbbrevTable → Bool →
    DwState × Option (List AbbrevTable)
  | 0, _, st, _, _ => (st, none)
  | fuel + 1, ctx, st, chain, sectionOpen =>
    if read_ctx_eof ctx then (st, some chain)
    else
      match abbrev_scan (fuel + 1) ctx st (2 ^ 64 - 1) (2 ^ 64 - 1) none false with
      | .fail st1 => (st1, none)
      | .noCode _ st1 _ zseq =>
        -- end of data inside the zero-code loop: padding message, break
        let st2 := if zseq ≠ none then message_padding_0 mc_abbrevs st1 else st1
        (st2, some chain)
      | .gotCode ctx1 st1 code off zeroSeen zseq =>
        let st2 := if zseq ≠ none then message_padding_0 mc_abbrevs st1 else st1
        if read_ctx_eof ctx1 then (st2, some chain)
        else
          let sectionOpen1 := sectionOpen ∧ ¬zeroSeen
          let chain1 := if sectionOpen1 then chain else ⟨off, []⟩ :: chain
          match abbrev_parse_one fuel ctx1 st2 code with
          | (st3, none) => (st3, none)
          | (st3, some (ctx2, ab)) =>
            abbrev_table_load_go fuel ctx2 st3 (chain_append_abbrev chain1 ab) true

/-- `abbrev_table_load`.  The C function returns `NULL` both on failure
and for a section with no tables; the empty list plays the role of the
null chain. -/
def abbrev_table_load (ctx : ReadCtx) (st : DwState) : DwState × List AbbrevTable :=
  match abbrev_table_load_go (ctx.endp - ctx.ptr + 2) ctx st [] false with
  | (st1, none) => (st1, [])
  | (st1, some chain) =>
    (st1, chain.map (fun t => { t with abbr := sort_abbrevs t.abbr }))

/-! ## Address and reference records -/

structure Ref where
  addr : Nat
  who : Nat
deriving Repr, DecidableEq

/-- `struct cu`; the chain is a `List Cu` (head = newest, CUs are
prepended), and the empty list plays the role of the null chain. -/
structure Cu where
  offset : Nat
  length : Nat
  die_addrs : List Nat
  die_refs : List Ref
deriving Repr, DecidableEq

/-- `addr_record_find_addr`'s binary search (lower bound). -/
def addr_find_go : Nat → List Nat → Nat → Nat → Nat → Nat
  | 0, _, _, a, _ => a
  | fuel + 1, addrs, addr, a, b =>
    if a < b then
      let i := (a + b) / 2
      let v := addrs.getD i 0
      if addr < v then addr_find_go fuel addrs addr a i
      else if v < addr then addr_find_go fuel addrs addr (i + 1) b
      else i
    else a

def addr_record_find_addr (ar : List Nat) (addr : Nat) : Nat :=
  addr_find_go (ar.length + 1) ar addr 0 ar.length

def addr_record_has_addr (ar : List Nat) (addr : Nat) : Bool :=
  if ar.length = 0 ∨ addr < ar.getD 0 0 ∨ ar.getD (ar.length - 1) 0 < addr then false
  else
    let a := addr_record_find_addr ar addr
    a < ar.length && ar.getD a 0 = addr

def addr_record_add (ar : List Nat) (addr : Nat) : List Nat :=
  let a := addr_record_find_addr ar addr
  if ar.length ≤ a ∨ ar.getD a 0 ≠ addr then ar.take a ++ [addr] ++ ar.drop a
  else ar

def ref_record_add (rr : List Ref) (addr who : Nat) : List Ref :=
  rr ++ [⟨addr, who⟩]

/-- The nested function `record_ref` of `read_die_chain`.  `ctxLen` is
`ctx->end - ctx->begin` of the CU sub-reader; `dieRefs` is
`cu->die_refs`; `dieLocRefs` is the (possibly null) `die_loc_refs`
record; `loc` is the `local` argument. -/
def record_ref (cuOffset ctxLen : Nat) (dieRefs : List Ref)
    (dieLocRefs : Option (List Ref)) (addr who : Nat) (loc : Bool) (st : DwState) :
    List Ref × Option (List Ref) × DwState :=
  if loc then
    if ctxLen < addr then (dieRefs, dieLocRefs, wr_error .refOutsideCU st)
    else
      match dieLocRefs with
      | some l => (dieRefs, some (ref_record_add l (addr + cuOffset) who), st)
      | none => (dieRefs, none, st)
  else (ref_record_add dieRefs addr who, dieLocRefs, st)

/-! ## Coverage bitset (`struct coverage`) -/

def coverage_emt_bits : Nat := 64

structure Coverage where
  alloc : Nat
  size : Nat
  buf : List Nat
deriving Repr, DecidableEq

def coverage_init (size : Nat) : Coverage :=
  let ctemts := size / coverage_emt_bits + 1
  ⟨ctemts, size, List.replicate ctemts 0⟩

def coverage_add (c : Coverage) (b e : Nat) : Coverage :=
  let bi := b / coverage_emt_bits
  let ei := e / coverage_emt_bits
  let bb := b % coverage_emt_bits
  let eb := e % coverage_emt_bits
  let bm := (2 ^ 64 - 1) >>> bb
  let em := ((2 ^ 64 - 1) <<< (coverage_emt_bits - 1 - eb)) % 2 ^ 64
  if bi = ei then
    { c with buf := c.buf.set bi (c.buf.getD bi 0 ||| (bm &&& em)) }
  else
    let buf1 := (c.buf.set bi (c.buf.getD bi 0 ||| bm)).set ei (c.buf.getD ei 0 ||| em)
    { c with buf :=
        (List.range buf1.length).map fun j =>
          if bi < j ∧ j < ei then 2 ^ 64 - 1 else buf1.getD j 0 }

/-- State of `coverage_find_holes`: the `hole`/`begin` pair plus the
holes reported so far (the callback is modelled by collecting its
arguments). -/
structure HoleState where
  hole : Bool
  hbegin : Nat
  found : List (Nat × Nat)
deriving Repr, DecidableEq

def hole_end (a : Nat) (s : HoleState) : HoleState :=
  if a ≠ s.hbegin then { hole := false, hbegin := s.hbegin, found := s.found ++ [(s.hbegin, a - 1)] }
  else { s with hole := false }

/-- The per-bit inner loop (`j` from 1 to `coverage_emt_bits`, with the
`addr > ar->size` break). -/
def cfh_bits (c : Coverage) (w i : Nat) (s0 : HoleState) : HoleState :=
  ((List.range coverage_emt_bits).foldl (fun (p : HoleState × Bool) j =>
      let (s, stopped) := p
      if stopped then p
      else
        let mask := (1 : Nat) <<< (coverage_emt_bits - (j + 1))
        let addr := i * coverage_emt_bits + j
        if c.size < addr then (s, true)
        else if ¬s.hole ∧ w &&& mask = 0 then ({ s with hole := true, hbegin := addr }, false)
        else if s.hole ∧ w &&& mask ≠ 0 then (hole_end addr s, false)
        else (s, false))
    (s0, false)).1

def coverage_find_holes (c : Coverage) : List (Nat × Nat) :=
  let s0 : HoleState := ⟨true, 0, []⟩
  let s1 := (List.range c.alloc).foldl (fun s i =>
    if c.buf.getD i 0 = 2 ^ 64 - 1 then
      if s.hole then hole_end (i * coverage_emt_bits) s else s
    else cfh_bits c (c.buf.getD i 0) i s) s0
  (if s1.hole then hole_end c.size s1 else s1).found

/-! ## Shared header helpers -/

def read_size_extra (ctx : ReadCtx) (size32 : Nat) (st : DwState) :
    ReadCtx × Option (Nat × Bool) × DwState :=
  if size32 = DWARF3_LENGTH_64_BIT then
    match read_ctx_read_8ubyte ctx with
    | none => (ctx, none, wr_error .sizeExtraCantRead64 st)
    | some (ctx1, v) => (ctx1, some (v, true), st)
  else if DWARF3_LENGTH_MIN_ESCAPE_CODE ≤ size32 then
    (ctx, none, wr_error .sizeExtraBadEscape st)
  else (ctx, some (size32, false), st)

/-- `check_zero_padding`: scans `[ptr, end)`; if all bytes are zero,
advances to `end`, emits the zero-padding message and returns `true`;
otherwise restores `ptr` and returns `false`. -/
def check_zero_padding (ctx : ReadCtx) (cat : Nat) (st : DwState) :
    ReadCtx × DwState × Bool :=
  if (List.range (ctx.endp - ctx.ptr)).all (fun i => byteAt ctx (ctx.ptr + i) == 0) then
    ({ ctx with ptr := ctx.endp }, vmessage_padding_0 cat st, true)
  else (ctx, st, false)

/-- `read_version`: the version gate.  The value is `some` exactly when
the C function returns `true`; note that `version == 2 && dwarf_64`
reports an error but still returns `true`. -/
def read_version (ctx : ReadCtx) (dwarf64 : Bool) (st : DwState) :
    ReadCtx × Option Nat × DwState :=
  match read_ctx_read_2ubyte ctx with
  | none => (ctx, none, wr_error .versionCantRead st)
  | some (ctx1, v) =>
    if v < 2 ∨ 3 < v then (ctx1, none, wr_error .versionBad st)
    else if v = 2 ∧ dwarf64 then (ctx1, some v, wr_error .version64v2 st)
    else (ctx1, some v, st)

/-! ## The DIE walker (`read_die_chain`) -/

/-- `strlen (strings + addr)` over the modelled `.debug_str` bytes. -/
def cstrlen (strs : List Nat) (addr : Nat) : Nat :=
  ((strs.drop addr).takeWhile (fun b => b % 256 ≠ 0)).length

/-- The `do { read_ctx_read_ubyte } while (byte != 0)` loop of
`DW_FORM_string`. -/
def skip_string_go : Nat → ReadCtx → Option ReadCtx
  | 0, _ => none
  | fuel + 1, ctx =>
    match read_ctx_read_ubyte ctx with
    | none => none
    | some (ctx1, b) => if b = 0 then some ctx1 else skip_string_go fuel ctx1

def skip_form_string (ctx : ReadCtx) : Option ReadCtx :=
  skip_string_go (ctx.endp - ctx.ptr + 1) ctx

/-- The mutable state threaded through `read_die_chain`: the reader,
the CU's address/reference records, the abbrev table (whose `used`
flags the walker sets), the CU-local reference record, the optional
strings coverage, and the message state. -/
structure WalkSt where
  ctx : ReadCtx
  cuAddrs : List Nat
  cuRefs : List Ref
  abbrevs : AbbrevTable
  locRefs : Option (List Ref)
  cov : Option Coverage
  st : DwState
deriving Repr

/-- The block-length read of the `DW_FORM_block*` cases (`width = 0`
means a ULEB128 length, per the `process_DW_FORM_block` label);
`none` stands for the `cant_read` failure path. -/
def read_block_length (width : Nat) (w : WalkSt) : WalkSt × Option Nat :=
  if width = 0 then
    match checked_read_uleb128 w.ctx w.st with
    | (ctx1, none, st1) => ({ w with ctx := ctx1, st := st1 }, none)
    | (ctx1, some length, st1) => ({ w with ctx := ctx1, st := st1 }, some length)
  else
    match read_ctx_read_var w.ctx width with
    | none => ({ w with st := wr_error .dieCantReadAttrValue w.st }, none)
    | some (ctx1, length) => ({ w with ctx := ctx1 }, some length)

/-- Attribute decoding for one resolved form.  Returns the updated
state, the sibling latch, and `false` for the `return -1` paths. -/
def die_attr_form (cuOffset die_off : Nat) (strings : Option (List Nat))
    (dwarf64 addr64 : Bool) (a : AbbrevAttrib) (f : Nat) (w : WalkSt)
    (sibling : Nat) : WalkSt × Nat × Bool :=
  if f = DW_FORM_strp then
    match read_ctx_read_offset w.ctx dwarf64 with
    | none => ({ w with st := wr_error .dieCantReadAttrValue w.st }, sibling, false)
    | some (ctx1, addr) =>
      match strings with
      | none => ({ w with ctx := ctx1, st := wr_error .dieStrpNoDebugStr w.st }, sibling, true)
      | some strs =>
        if strs.length ≤ addr then
          ({ w with ctx := ctx1, st := wr_error .dieStrpOutOfBounds w.st }, sibling, true)
        else
          let e := addr + cstrlen strs addr
          let cov1 := match w.cov with
            | some c => some (coverage_add c addr e)
            | none => none
          ({ w with ctx := ctx1, cov := cov1 }, sibling, true)
  else if f = DW_FORM_string then
    match skip_form_string w.ctx with
    | none => ({ w with st := wr_error .dieCantReadAttrValue w.st }, sibling, false)
    | some ctx1 => ({ w with ctx := ctx1 }, sibling, true)
  else if f = DW_FORM_addr ∨ f = DW_FORM_ref_addr then
    match read_ctx_read_offset w.ctx addr64 with
    | none => ({ w with st := wr_error .dieCantReadAttrValue w.st }, sibling, false)
    | some (ctx1, addr) =>
      if a.form = DW_FORM_ref_addr then
        let (r, l, st1) :=
          record_ref cuOffset (ctx1.endp - ctx1.beg) w.cuRefs w.locRefs addr die_off false w.st
        ({ w with ctx := ctx1, cuRefs := r, locRefs := l, st := st1 }, sibling, true)
      else ({ w with ctx := ctx1 }, sibling, true)
  else if f = DW_FORM_udata ∨ f = DW_FORM_ref_udata then
    match checked_read_uleb128 w.ctx w.st with
    | (ctx1, none, st1) => ({ w with ctx := ctx1, st := st1 }, sibling, false)
    | (ctx1, some value, st1) =>
      if a.name = DW_AT_sibling then ({ w with ctx := ctx1, st := st1 }, value, true)
      else if a.form = DW_FORM_ref_udata then
        let (r, l, st2) :=
          record_ref cuOffset (ctx1.endp - ctx1.beg) w.cuRefs w.locRefs value die_off true st1
        ({ w with ctx := ctx1, cuRefs := r, locRefs := l, st := st2 }, sibling, true)
      else ({ w with ctx := ctx1, st := st1 }, sibling, true)
  else if f = DW_FORM_flag ∨ f = DW_FORM_data1 ∨ f = DW_FORM_ref1 then
    match read_ctx_read_ubyte w.ctx with
    | none => ({ w with st := wr_error .dieCantReadAttrValue w.st }, sibling, false)
    | some (ctx1, value) =>
      if a.name = DW_AT_sibling then ({ w with ctx := ctx1 }, value, true)
      else if a.form = DW_FORM_ref1 then
        let (r, l, st1) :=
          record_ref cuOffset (ctx1.endp - ctx1.beg) w.cuRefs w.locRefs value die_off true w.st
        ({ w with ctx := ctx1, cuRefs := r, locRefs := l, st := st1 }, sibling, true)
      else ({ w with ctx := ctx1 }, sibling, true)
  else if f = DW_FORM_data2 ∨ f = DW_FORM_ref2 then
    match read_ctx_read_2ubyte w.ctx with
    | none => ({ w with st := wr_error .dieCantReadAttrValue w.st }, sibling, false)
    | some (ctx1, value) =>
      if a.name = DW_AT_sibling then ({ w with ctx := ctx1 }, value, true)
      else if a.form = DW_FORM_ref2 then
        let (r, l, st1) :=
          record_ref cuOffset (ctx1.endp - ctx1.beg) w.cuRefs w.locRefs value die_off true w.st
        ({ w with ctx := ctx1, cuRefs := r, locRefs := l, st := st1 }, sibling, true)
      else ({ w with ctx := ctx1 }, sibling, true)
  else if f = DW_FORM_data4 ∨ f = DW_FORM_ref4 then
    match read_ctx_read_4ubyte w.ctx with
    | none => ({ w with st := wr_error .dieCantReadAttrValue w.st }, sibling, false)
    | some (ctx1, value) =>
      if a.name = DW_AT_sibling then ({ w with ctx := ctx1 }, value, true)
      else if a.form = DW_FORM_ref4 then
        let (r, l, st1) :=
          record_ref cuOffset (ctx1.endp - ctx1.beg) w.cuRefs w.locRefs value die_off true w.st
        ({ w with ctx := ctx1, cuRefs := r, locRefs := l, st := st1 }, sibling, true)
      else ({ w with ctx := ctx1 }, sibling, true)
  else if f = DW_FORM_data8 ∨ f = DW_FORM_ref8 then
    match read_ctx_read_8ubyte w.ctx with
    | none => ({ w with st := wr_error .dieCantReadAttrValue w.st }, sibling, false)
    | some (ctx1, value) =>
      if a.name = DW_AT_sibling then ({ w with ctx := ctx1 }, value, true)
      else if a.form = DW_FORM_ref8 then
        let (r, l, st1) :=
          record_ref cuOffset (ctx1.endp - ctx1.beg) w.cuRefs w.locRefs value die_off true w.st
        ({ w with ctx := ctx1, cuRefs := r, locRefs := l, st := st1 }, sibling, true)
      else ({ w with ctx := ctx1 }, sibling, true)
  else if f = DW_FORM_sdata then
    match checked_read_sleb128 w.ctx w.st with
    | (ctx1, none, st1) => ({ w with ctx := ctx1, st := st1 }, sibling, false)
    | (ctx1, some _, st1) => ({ w with ctx := ctx1, st := st1 }, sibling, true)
  else if f = DW_FORM_block ∨ f = DW_FORM_block1 ∨ f = DW_FORM_block2
      ∨ f = DW_FORM_block4 then
    match read_block_length (if f = DW_FORM_block then 0
      else if f = DW_FORM_block1 then 1
      else if f = DW_FORM_block2 then 2 else 4) w with
    | (w1, none) => (w1, sibling, false)
    | (w1, some length) =>
      match read_ctx_skip w1.ctx length with
      | none => ({ w1 with st := wr_error .dieCantReadAttrValue w1.st }, sibling, false)
      | some ctx2 => ({ w1 with ctx := ctx2 }, sibling, true)
  else if f = DW_FORM_indirect then
    ({ w with st := wr_error .dieIndirectAgain w.st }, sibling, false)
  else
    -- `default:` prints an error but does not return
    ({ w with st := wr_error .dieUnhandledForm w.st }, sibling, true)

/-- The attribute loop `for (it = abbrev->attribs; it->name != 0; ++it)`,
including `DW_FORM_indirect` resolution. -/
def die_attrs (cuOffset die_off : Nat) (strings : Option (List Nat))
    (dwarf64 addr64 : Bool) :
    List AbbrevAttrib → WalkSt → Nat → WalkSt × Nat × Bool
  | [], w, sibling => (w, sibling, true)
  | a :: rest, w, sibling =>
    if a.name = 0 then (w, sibling, true)
    else
      let fres : WalkSt × Option Nat :=
        if a.form = DW_FORM_indirect then
          match checked_read_uleb128 w.ctx w.st with
          | (ctx1, none, st1) => ({ w with ctx := ctx1, st := st1 }, none)
          | (ctx1, some value, st1) =>
            if ¬attrib_form_valid value then
              ({ w with ctx := ctx1, st := wr_error .dieInvalidIndirectForm st1 }, none)
            else
              let st2 :=
                if a.name = DW_AT_sibling then
                  if check_sibling_form value = -1 then
                    message (mc_die_rel_sib ||| mc_impact_2) .dieSibIndirectRefAddr st1
                  else if check_sibling_form value = -2 then
                    wr_error .dieSibIndirectBadForm st1
                  else st1
                else st1
              ({ w with ctx := ctx1, st := st2 }, some value)
        else (w, some a.form)
      match fres with
      | (w1, none) => (w1, sibling, false)
      | (w1, some f) =>
        match die_attr_form cuOffset die_off strings dwarf64 addr64 a f w1 sibling with
        | (w2, sibling1, false) => (w2, sibling1, false)
        | (w2, sibling1, true) =>
          die_attrs cuOffset die_off strings dwarf64 addr64 rest w2 sibling1

/-- Post-loop code of `read_die_chain`: the dangling-sibling error and
the `got_die ? 1 : 0` result. -/
def die_chain_post (w : WalkSt) (sibling : Nat) (gotDie : Bool) : WalkSt × Int :=
  (if sibling ≠ 0 then { w with st := wr_error .dieChainEndedSibling w.st } else w,
   if gotDie then 1 else 0)

/-- The main loop of `read_die_chain`.  `prevAbbrev` models the C
variable `prev_abbrev`, which is initialized to `NULL` and — as in the
source — never assigned afterwards; it is passed through iterations
unchanged. -/
def read_die_chain_go :
    Nat → (cuOffset : Nat) → (strings : Option (List Nat)) →
    (dwarf64 addr64 : Bool) → WalkSt → Bool → Nat → Option Abbrev → WalkSt × Int
  | 0, _, _, _, _, w, _, _, _ => (w, -1)
  | fuel + 1, cuOffset, strings, dwarf64, addr64, w, gotDie, sibling, prevAbbrev =>
    if read_ctx_eof w.ctx then die_chain_post w sibling gotDie
    else
      let die_off := read_ctx_get_offset w.ctx
      match checked_read_uleb128 w.ctx w.st with
      | (ctx1, none, st1) => ({ w with ctx := ctx1, st := st1 }, -1)
      | (ctx1, some code, st1) =>
        let st2 :=
          if sibling ≠ 0 then
            if code = 0 then wr_error .dieLastSiblingHasSibling st1
            else if sibling ≠ die_off then wr_error .dieSiblingMismatch st1
            else st1
          else
            match prevAbbrev with
            | some pa =>
              if pa.has_children then
                message (mc_die_rel_sib ||| mc_acc_suboptimal ||| mc_impact_4)
                  .dieChildrenNoSibling st1
              else st1
            | none => st1
        let sibling1 := 0
        if read_ctx_eof ctx1 ∨ code = 0 then
          let st3 := if code ≠ 0 then wr_error .dieChainNotTerminated st2 else st2
          die_chain_post { w with ctx := ctx1, st := st3 } sibling1 gotDie
        else
          match abbrev_table_find_abbrev w.abbrevs code with
          | none => ({ w with ctx := ctx1, st := wr_error .dieUnknownAbbrevCode st2 }, -1)
          | some idx =>
            let ab := w.abbrevs.abbr.getD idx ⟨0, 0, false, false, []⟩
            let abbrevs1 :=
              { w.abbrevs with abbr := w.abbrevs.abbr.set idx { ab with used := true } }
            let cuAddrs1 := addr_record_add w.cuAddrs (cuOffset + die_off)
            let w1 : WalkSt :=
              { w with ctx := ctx1, cuAddrs := cuAddrs1, abbrevs := abbrevs1, st := st2 }
            match die_attrs cuOffset die_off strings dwarf64 addr64 ab.attribs w1 sibling1 with
            | (w2, _, false) => (w2, -1)
            | (w2, sibling2, true) =>
              if ab.has_children then
                match read_die_chain_go fuel cuOffset strings dwarf64 addr64 w2 false 0 none with
                | (w3, childSt) =>
                  if childSt = -1 then (w3, -1)
                  else
                    let st4 :=
                      if childSt = 0 then
                        message (mc_impact_3 ||| mc_acc_suboptimal ||| mc_die_rel_child)
                          .dieChainEmptyChildren w3.st
                      else w3.st
                    read_die_chain_go fuel cuOffset strings dwarf64 addr64
                      { w3 with st := st4 } true sibling2 prevAbbrev
              else
                read_die_chain_go fuel cuOffset strings dwarf64 addr64
                  w2 true sibling2 prevAbbrev

def read_die_chain (fuel : Nat) (cuOffset : Nat) (strings : Option (List Nat))
    (dwarf64 addr64 : Bool) (w : WalkSt) : WalkSt × Int :=
  read_die_chain_go fuel cuOffset strings dwarf64 addr64 w false 0 none

/-! ## CU-level checks -/

def cu_find_cu (cu_chain : List Cu) (offset : Nat) : Option Cu :=
  cu_chain.find? (fun it => it.offset = offset)

def check_die_references (cu : Cu) (die_refs : List Ref) (st : DwState) :
    Bool × DwState :=
  die_refs.foldl
    (fun (p : Bool × DwState) ref =>
      if ¬addr_record_has_addr cu.die_addrs ref.addr then
        (false, wr_error .dieUnresolvedRef p.2)
      else p)
    (true, st)

/-- `check_global_die_references`.  The pointer comparison `ref_cu == it`
is modelled by comparing CU offsets (distinct CUs in a built chain have
distinct section offsets). -/
def check_global_die_references (cu_chain : List Cu) (st : DwState) :
    Bool × DwState :=
  cu_chain.foldl
    (fun (acc : Bool × DwState) it =>
      it.die_refs.foldl
        (fun (p : Bool × DwState) ref =>
          match cu_chain.find? (fun jt => addr_record_has_addr jt.die_addrs ref.addr) with
          | none => (false, wr_error .dieUnresolvedGlobalRef p.2)
          | some ref_cu =>
            if ref_cu.offset = it.offset then
              (p.1, message (mc_impact_2 ||| mc_acc_suboptimal ||| mc_die_rel_ref)
                .dieLocalRefAsGlobal p.2)
            else p)
        acc)
    (true, st)

/-- `check_cu_structural`.  Returns the `bool` result together with the
sub-reader, the (mutated) CU, the (mutated) abbrev chain — the walker
sets `used` flags through the table pointer — the coverage and the
message state. -/
def check_cu_structural (fuel : Nat) (ctx : ReadCtx) (cu : Cu)
    (abbrev_chain : List AbbrevTable) (strings : Option (List Nat))
    (dwarf64 : Bool) (cov : Option Coverage) (st : DwState) :
    Bool × ReadCtx × Cu × List AbbrevTable × Option Coverage × DwState :=
  match read_version ctx dwarf64 st with
  | (ctx1, none, st1) => (false, ctx1, cu, abbrev_chain, cov, st1)
  | (ctx1, some _, st1) =>
    match read_ctx_read_offset ctx1 dwarf64 with
    | none => (false, ctx1, cu, abbrev_chain, cov, wr_error .cuCantReadAbbrevOffset st1)
    | some (ctx2, abbrev_offset) =>
      match read_ctx_read_ubyte ctx2 with
      | none => (false, ctx2, cu, abbrev_chain, cov, wr_error .cuCantReadAddressSize st1)
      | some (ctx3, address_size) =>
        if address_size ≠ 4 ∧ address_size ≠ 8 then
          (false, ctx3, cu, abbrev_chain, cov, wr_error .cuInvalidAddressSize st1)
        else
          match abbrev_chain.find? (fun t => t.offset = abbrev_offset) with
          | none => (false, ctx3, cu, abbrev_chain, cov, wr_error .cuAbbrevNotFound st1)
          | some abbrevs =>
            let w0 : WalkSt := ⟨ctx3, cu.die_addrs, cu.die_refs, abbrevs, some [], cov, st1⟩
            let (w1, status) :=
              read_die_chain fuel cu.offset strings dwarf64 (address_size = 8) w0
            let cu1 := { cu with die_addrs := w1.cuAddrs, die_refs := w1.cuRefs }
            let chain1 :=
              abbrev_chain.map (fun t => if t.offset = abbrev_offset then w1.abbrevs else t)
            if 0 ≤ status then
              let st2 := w1.abbrevs.abbr.foldl
                (fun s ab =>
                  if ¬ab.used then
                    message (mc_impact_3 ||| mc_acc_bloat ||| mc_abbrevs) .abbrevUnused s
                  else s)
                w1.st
              let (sound, st3) := check_die_references cu1 (w1.locRefs.getD []) st2
              (sound, w1.ctx, cu1, chain1, w1.cov, st3)
            else (false, w1.ctx, cu1, chain1, w1.cov, w1.st)

/-- The per-CU loop of `check_debug_info_structural`. -/
def cdis_go :
    Nat → ReadCtx → List AbbrevTable → Option (List Nat) → Option Coverage →
    List Cu → Bool → DwState →
    ReadCtx × List AbbrevTable × Option Coverage × List Cu × Bool × DwState
  | 0, ctx, chain, _, cov, cus, success, st => (ctx, chain, cov, cus, success, st)
  | fuel + 1, ctx, chain, strings, cov, cus, success, st =>
    if read_ctx_eof ctx then (ctx, chain, cov, cus, success, st)
    else
      let cu_begin := ctx.ptr
      let cu_off := read_ctx_get_offset ctx
      let cur : Cu := ⟨cu_off, 0, [], []⟩
      if ¬read_ctx_need_data ctx 4 then
        match check_zero_padding ctx mc_die_other st with
        | (ctxZ, stZ, true) => (ctxZ, chain, cov, cur :: cus, success, stZ)
        | (_, _, false) =>
          -- fewer than 4 bytes of nonzero tail: the 4-byte read below fails
          (ctx, chain, cov, cur :: cus, false, wr_error .cuCantReadLength st)
      else
        match read_ctx_read_4ubyte ctx with
        | none => (ctx, chain, cov, cur :: cus, false, wr_error .cuCantReadLength st)
        | some (ctx1, size32) =>
          let zres :=
            if size32 = 0 then some (check_zero_padding ctx1 mc_die_other st)
            else none
          match zres with
          | some (ctxZ, stZ, true) => (ctxZ, chain, cov, cur :: cus, success, stZ)
          | _ =>
            match read_size_extra ctx1 size32 st with
            | (ctx2, none, st2) => (ctx2, chain, cov, cur :: cus, false, st2)
            | (ctx2, some (size, dwarf64), st2) =>
              if ¬read_ctx_need_data ctx2 size then
                ({ ctx2 with ptr := ctx2.endp }, chain, cov, cur :: cus, false,
                  wr_error .cuNotEnoughData st2)
              else
                let cu_end := ctx2.ptr + size
                let cur1 := { cur with length := cu_end - cu_begin }
                let cu_header_size := 2 + (if dwarf64 then 8 else 4) + 1
                if size < cu_header_size then
                  (ctx2, chain, cov, cur1 :: cus, false, wr_error .cuLengthTooSmall st2)
                else
                  let cu_ctx : ReadCtx := ⟨ctx2.data, ctx2.be, cu_begin, cu_end, ctx2.ptr⟩
                  match check_cu_structural fuel cu_ctx cur1 chain strings dwarf64 cov st2 with
                  | (false, _, cur2, chain2, cov2, st3) =>
                    (ctx2, chain2, cov2, cur2 :: cus, false, st3)
                  | (true, cu_ctx1, cur2, chain2, cov2, st3) =>
                    let st4 :=
                      if cu_ctx1.ptr ≠ cu_ctx1.endp then
                        match check_zero_padding cu_ctx1 mc_die_other st3 with
                        | (_, stZ, true) => stZ
                        | (_, stZ, false) => message_padding_n0 mc_die_other stZ
                      else st3
                    cdis_go fuel { ctx2 with ptr := ctx2.ptr + size } chain2 strings cov2
                      (cur2 :: cus) success st4

/-- The strings-coverage hole callback of `check_debug_info_structural`:
all-zero holes are reported as padding, others as unreferenced bytes. -/
def strings_hole_message (strs : List Nat) (h : Nat × Nat) (st : DwState) : DwState :=
  if (List.range (h.2 - h.1 + 1)).all (fun i => strs.getD (h.1 + i) 0 % 256 == 0) then
    message_padding_0 mc_strings st
  else message_padding_n0 mc_strings st

def check_debug_info_structural (fuel : Nat) (ctx : ReadCtx)
    (abbrev_chain : List AbbrevTable) (strings : Option (List Nat)) (st : DwState) :
    List Cu × List AbbrevTable × DwState :=
  let cov : Option Coverage :=
    match strings with
    | some strs => if check_category st mc_strings then some (coverage_init strs.length) else none
    | none => none
  match cdis_go fuel ctx abbrev_chain strings cov [] true st with
  | (ctx1, chain1, cov1, cus, success, st1) =>
    let st2 :=
      if success ∧ ctx1.ptr ≠ ctx1.endp then
        message (mc_die_other ||| mc_impact_4) .infoLengthsMismatch st1
      else st1
    let (references_sound, st3) := check_global_die_references cus st2
    let st4 :=
      match cov1, strings with
      | some c, some strs =>
        if success then
          (coverage_find_holes c).foldl (fun s h => strings_hole_message strs h s) st3
        else st3
      | _, _ => st3
    if ¬success ∨ ¬references_sound then ([], chain1, st4)
    else (cus, chain1, st4)

/-! ## Aranges checker -/

/-- The header-padding byte loop (from `off` up to the next tuple
boundary). -/
def ar_padding_go : Nat → ReadCtx → DwState → ReadCtx × DwState × Bool
  | 0, ctx, st => (ctx, st, true)
  | n + 1, ctx, st =>
    match read_ctx_read_ubyte ctx with
    | none => (ctx, wr_error .arEndsBeforeEntry st, false)
    | some (ctx1, c) =>
      let st1 :=
        if c ≠ 0 then message (mc_impact_2 ||| mc_aranges) .arNonzeroPadding st else st
      ar_padding_go n ctx1 st1

/-- The `(address, length)` tuple loop. -/
def ar_tuples_go : Nat → ReadCtx → Nat → DwState → ReadCtx × DwState × Bool
  | 0, ctx, _, st => (ctx, st, true)
  | fuel + 1, ctx, address_size, st =>
    if read_ctx_eof ctx then (ctx, st, true)
    else
      match read_ctx_read_var ctx address_size with
      | none => (ctx, wr_error .arCantReadAddress st, false)
      | some (ctx1, address) =>
        match read_ctx_read_var ctx1 address_size with
        | none => (ctx1, wr_error .arCantReadTupleLength st, false)
        | some (ctx2, length) =>
          if address = 0 ∧ length = 0 then (ctx2, st, true)
          else ar_tuples_go fuel ctx2 address_size st

def check_aranges_structural_go :
    Nat → ReadCtx → List Cu → Bool → DwState → Bool × DwState
  | 0, _, _, retval, st => (retval, st)
  | fuel + 1, ctx, cu_chain, retval, st =>
    if read_ctx_eof ctx then (retval, st)
    else
      let atab_begin := ctx.ptr
      match read_ctx_read_4ubyte ctx with
      | none => (false, wr_error .arCantReadLength st)
      | some (ctx1, size32) =>
        match read_size_extra ctx1 size32 st with
        | (_, none, st1) => (false, st1)
        | (ctx2, some (size, dwarf64), st1) =>
          let next := fun (retval1 : Bool) (st' : DwState) =>
            check_aranges_structural_go fuel { ctx2 with ptr := ctx2.ptr + size }
              cu_chain retval1 st'
          let sub_ctx : ReadCtx := ⟨ctx2.data, ctx2.be, atab_begin, ctx2.ptr + size, ctx2.ptr⟩
          match read_version sub_ctx dwarf64 st1 with
          | (_, none, st2) => next false st2
          | (sub1, some _, st2) =>
            match read_ctx_read_offset sub1 dwarf64 with
            | none => next false (wr_error .arCantReadCuOffset st2)
            | some (sub2, cu_off) =>
              let st3 :=
                if cu_chain ≠ [] ∧ cu_find_cu cu_chain cu_off = none then
                  wr_error .arUnresolvedCU st2
                else st2
              match read_ctx_read_ubyte sub2 with
              | none => next false (wr_error .arCantReadAddrSize st3)
              | some (sub3, address_size) =>
                if address_size ≠ 2 ∧ address_size ≠ 4 ∧ address_size ≠ 8 then
                  next false (wr_error .arInvalidAddrSize st3)
                else
                  match read_ctx_read_ubyte sub3 with
                  | none => next false (wr_error .arCantReadSegSize st3)
                  | some (sub4, segment_size) =>
                    if segment_size ≠ 0 then
                      next false (wr_warning .arSegSizeUnsupported st3)
                    else
                      let tuple_size := 2 * address_size
                      let off := read_ctx_get_offset sub4
                      let pres :=
                        if off % tuple_size ≠ 0 then
                          ar_padding_go ((off / tuple_size + 1) * tuple_size - off) sub4 st3
                        else (sub4, st3, true)
                      match pres with
                      | (_, st4, false) => next false st4
                      | (sub5, st4, true) =>
                        match ar_tuples_go (fuel + 1) sub5 address_size st4 with
                        | (_, st5, false) => next false st5
                        | (sub6, st5, true) =>
                          if sub6.ptr ≠ sub6.endp then
                            match check_zero_padding sub6 mc_pubnames st5 with
                            | (_, st6, true) => next retval st6
                            | (_, st6, false) =>
                              next false
                                (message_padding_n0 (mc_pubnames ||| mc_error) st6)
                          else next retval st5

def check_aranges_structural (fuel : Nat) (ctx : ReadCtx) (cu_chain : List Cu)
    (st : DwState) : Bool × DwState :=
  check_aranges_structural_go fuel ctx cu_chain true st

/-! ## Pubnames checker -/

/-- The `(die offset, name)` pair loop of one pubnames set. -/
def pn_pairs_go : Nat → ReadCtx → Bool → Cu → DwState → ReadCtx × DwState × Bool
  | 0, ctx, _, _, st => (ctx, st, true)
  | fuel + 1, ctx, dwarf64, cu, st =>
    if read_ctx_eof ctx then (ctx, st, true)
    else
      match read_ctx_read_offset ctx dwarf64 with
      | none => (ctx, wr_error .pnCantReadOffsetField st, false)
      | some (ctx1, offset) =>
        if offset = 0 then (ctx1, st, true)
        else if ¬addr_record_has_addr cu.die_addrs (offset + cu.offset) then
          (ctx1, wr_error .pnUnresolvedDie st, false)
        else
          match skip_form_string ctx1 with
          | none => (ctx1, wr_error .pnCantReadName st, false)
          | some ctx2 => pn_pairs_go fuel ctx2 dwarf64 cu st

/-- The per-set loop of `check_pubnames_structural`.  The result is
`none` when the run crashes: the `cu->length` read dereferences a null
`cu` when the back-reference did not resolve. -/
def check_pubnames_structural_go :
    Nat → ReadCtx → List Cu → Bool → DwState → Option (Bool × DwState)
  | 0, _, _, retval, st => some (retval, st)
  | fuel + 1, ctx, cu_chain, retval, st =>
    if read_ctx_eof ctx then some (retval, st)
    else
      let set_begin := ctx.ptr
      match read_ctx_read_4ubyte ctx with
      | none => some (false, wr_error .pnCantReadLength st)
      | some (ctx1, size32) =>
        match read_size_extra ctx1 size32 st with
        | (_, none, st1) => some (false, st1)
        | (ctx2, some (size, dwarf64), st1) =>
          let next := fun (retval1 : Bool) (st' : DwState) =>
            check_pubnames_structural_go fuel { ctx2 with ptr := ctx2.ptr + size }
              cu_chain retval1 st'
          let sub_ctx : ReadCtx := ⟨ctx2.data, ctx2.be, set_begin, ctx2.ptr + size, ctx2.ptr⟩
          match read_ctx_read_2ubyte sub_ctx with
          | none => next false (wr_error .pnCantReadVersion st1)
          | some (sub1, _) =>
            match read_ctx_read_offset sub1 dwarf64 with
            | none => next false (wr_error .pnCantReadCuOffset st1)
            | some (sub2, cu_off) =>
              let cuFound := cu_find_cu cu_chain cu_off
              let st2 :=
                if cu_chain ≠ [] ∧ cuFound = none then wr_error .pnUnresolvedCU st1
                else st1
              match read_ctx_read_offset sub2 dwarf64 with
              | none => next false (wr_error .pnCantReadCuLength st2)
              | some (sub3, cu_len) =>
                match cuFound with
                | none => none  -- `cu_len != cu->length` dereferences NULL
                | some cu =>
                  if cu_len ≠ cu.length then next false (wr_error .pnLengthMismatch st2)
                  else
                    match pn_pairs_go (fuel + 1) sub3 dwarf64 cu st2 with
                    | (_, st3, false) => next false st3
                    | (sub4, st3, true) =>
                      if sub4.ptr ≠ sub4.endp then
                        match check_zero_padding sub4 mc_pubnames st3 with
                        | (_, st4, true) => next retval st4
                        | (_, st4, false) =>
                          next false (message_padding_n0 (mc_pubnames ||| mc_error) st4)
                      else next retval st3

/-- `check_pubnames_structural`; `assert (cu_chain)` aborts the process
(`none`) on a null CU chain. -/
def check_pubnames_structural (fuel : Nat) (ctx : ReadCtx) (cu_chain : List Cu)
    (st : DwState) : Option (Bool × DwState) :=
  if cu_chain = [] then none
  else check_pubnames_structural_go fuel ctx cu_chain true st

/-! ## The per-file driver (`process_file`) and exit code -/

/-- `read_ctx_init`: a cursor over a whole section. -/
def mk_read_ctx (d : List Nat) (be : Bool) : ReadCtx := ⟨d, be, 0, d.length, 0⟩

/-- `process_file`, given the five (possibly absent) debug-section byte
slices.  The result is `none` when the run aborts inside
`check_pubnames_structural`. -/
def process_file (abbrev_data info_data aranges_data pubnames_data str_data :
    Option (List Nat)) (be : Bool) (tolerate_nodebug : Bool) (st : DwState) :
    Option DwState :=
  let (st1, abbrev_chain) :=
    match abbrev_data with
    | some d => abbrev_table_load (mk_read_ctx d be) st
    | none => ((if ¬tolerate_nodebug then wr_error .noAbbrevData st else st), [])
  let (cu_chain, st2) :=
    if abbrev_chain ≠ [] then
      match info_data, str_data with
      | some di, some ds =>
        let r := check_debug_info_structural (2 * di.length + 8) (mk_read_ctx di be)
          abbrev_chain (some ds) st1
        (r.1, r.2.2)
      | _, _ => ([], if ¬tolerate_nodebug then wr_error .noInfoOrStrData st1 else st1)
    else ([], st1)
  let st3 :=
    match aranges_data with
    | some d => (check_aranges_structural (d.length + 2) (mk_read_ctx d be) cu_chain st2).2
    | none => message (mc_impact_4 ||| mc_acc_suboptimal ||| mc_elf) .noArangesData st2
  match pubnames_data with
  | some d =>
    match check_pubnames_structural (d.length + 2) (mk_read_ctx d be) cu_chain st3 with
    | none => none
    | some (_, st4) => some st4
  | none => some (message (mc_impact_4 ||| mc_acc_suboptimal ||| mc_elf) .noPubnamesData st3)

/-- `main`'s result: `return error_count != 0;`. -/
def dwarflint_exit_code (st : DwState) : Nat :=
  if st.errorCount ≠ 0 then 1 else 0

/-- Specification-level value of a ULEB128 byte list: little-endian
base-128 digits (each byte's low 7 bits). -/
def uleb_spec_value : List Nat → Nat
  | [] => 0
  | b :: l => b % 128 + 128 * uleb_spec_value l

/-- A well-formed ULEB128 encoding window: every byte but the last has
the continuation bit set, the last does not. -/
def uleb_wf : List Nat → Bool
  | [] => false
  | [b] => b < 128
  | b :: rest => (128 ≤ b && b < 256) && uleb_wf rest

/-- The final byte of a LEB128 encoding window. -/
def uleb_last : List Nat → Nat
  | [] => 0
  | [b] => b
  | _ :: rest => uleb_last rest

/-- The `zero_tail` condition of the SLEB128 decoder's last iteration:
the payload is `0x7f` with the sign flag set, or `0` with it clear. -/
def sleb_fill_match (s : Bool) (p : Nat) : Bool :=
  (decide (p = 0x7f) && s) || (decide (p = 0) && !s)

/-- The sign flag the SLEB128 decoder holds *entering* its last
iteration: bit 6 of the second-to-last byte (the C code computes
`zero_tail` from the previous iteration's `sign`, which is only
reassigned afterwards). -/
def sleb_prev_sign (sg : Bool) : List Nat → Bool
  | [] => sg
  | [_b] => sg
  | b :: rest => sleb_prev_sign (decide (b &&& 0x40 ≠ 0)) rest

end Dwarflint

open Dwarflint

theorem read_ctx_read_ubyte_eq {ctx ctx1 : ReadCtx} {byte : Nat}
    (h : read_ctx_read_ubyte ctx = some (ctx1, byte)) :
    ctx1 = { ctx with ptr := ctx.ptr + 1 } ∧ ctx.ptr + 1 ≤ ctx.endp ∧
      byte = byteAt ctx ctx.ptr := by
  unfold read_ctx_read_ubyte at h
  split at h
  · rename_i hg
    simp only [read_ctx_need_data, decide_eq_true_eq] at hg
    obtain ⟨h1, h2⟩ := Prod.mk.injEq .. ▸ (Option.some.injEq .. ▸ h)
    exact ⟨h1.symm, hg, h2.symm⟩
  · exact absurd h (by simp)

theorem uleb_go_ctx (fuel : Nat) : ∀ (ctx : ReadCtx) (r s : Nat),
    (read_ctx_read_uleb128_go fuel ctx r s).1.data = ctx.data ∧
    (read_ctx_read_uleb128_go fuel ctx r s).1.be = ctx.be ∧
    (read_ctx_read_uleb128_go fuel ctx r s).1.beg = ctx.beg ∧
    (read_ctx_read_uleb128_go fuel ctx r s).1.endp = ctx.endp ∧
    ctx.ptr ≤ (read_ctx_read_uleb128_go fuel ctx r s).1.ptr ∧
    (ctx.ptr ≤ ctx.endp → (read_ctx_read_uleb128_go fuel ctx r s).1.ptr ≤ ctx.endp) ∧
    ((read_ctx_read_uleb128_go fuel ctx r s).2.isSome = true →
      ctx.ptr < (read_ctx_read_uleb128_go fuel ctx r s).1.ptr) := by
  induction fuel with
  | zero => intro ctx r s; simp [read_ctx_read_uleb128_go]
  | succ n ih =>
    intro ctx r s
    rw [read_ctx_read_uleb128_go]
    cases h : read_ctx_read_ubyte ctx with
    | none => simp
    | some p =>
      obtain ⟨ctx1, byte⟩ := p
      obtain ⟨hc, hb, -⟩ := read_ctx_read_ubyte_eq h
      subst hc
      dsimp only
      split
      · simp; omega
      · split
        · simp; omega
        · have := ih { ctx with ptr := ctx.ptr + 1 } ((r ||| (byte % 128) <<< s) % 2 ^ 64) (s + 7)
          simp only at this ⊢
          refine ⟨this.1, this.2.1, this.2.2.1, this.2.2.2.1, ?_, ?_, ?_⟩ <;> omega
          

theorem sleb_go_ctx (fuel : Nat) : ∀ (ctx : ReadCtx) (r s : Nat) (sg : Bool),
    (read_ctx_read_sleb128_go fuel ctx r s sg).1.data = ctx.data ∧
    (read_ctx_read_sleb128_go fuel ctx r s sg).1.be = ctx.be ∧
    (read_ctx_read_sleb128_go fuel ctx r s sg).1.beg = ctx.beg ∧
    (read_ctx_read_sleb128_go fuel ctx r s sg).1.endp = ctx.endp ∧
    ctx.ptr ≤ (read_ctx_read_sleb128_go fuel ctx r s sg).1.ptr ∧
    (ctx.ptr ≤ ctx.endp → (read_ctx_read_sleb128_go fuel ctx r s sg).1.ptr ≤ ctx.endp) ∧
    ((read_ctx_read_sleb128_go fuel ctx r s sg).2.isSome = true →
      ctx.ptr < (read_ctx_read_sleb128_go fuel ctx r s sg).1.ptr) := by
  induction fuel with
  | zero => intro ctx r s sg; simp [read_ctx_read_sleb128_go]
  | succ n ih =>
    intro ctx r s sg
    rw [read_ctx_read_sleb128_go]
    cases h : read_ctx_read_ubyte ctx with
    | none => simp
    | some p =>
      obtain ⟨ctx1, byte⟩ := p
      obtain ⟨hc, hb, -⟩ := read_ctx_read_ubyte_eq h
      subst hc
      dsimp only
      split
      · simp; omega
      · split
        · simp; omega
        · have := ih { ctx with ptr := ctx.ptr + 1 } ((r ||| (byte % 128) <<< s) % 2 ^ 64)
            (s + 7) (decide (byte &&& 0x40 ≠ 0))
          simp only at this ⊢
          refine ⟨this.1, this.2.1, this.2.2.1, this.2.2.2.1, ?_, ?_, ?_⟩ <;> omega

theorem read_ctx_read_2ubyte_eq {ctx ctx1 : ReadCtx} {v : Nat}
    (h : read_ctx_read_2ubyte ctx = some (ctx1, v)) :
    ctx1 = { ctx with ptr := ctx.ptr + 2 } ∧ ctx.ptr + 2 ≤ ctx.endp := by
  unfold read_ctx_read_2ubyte at h
  split at h
  · rename_i hg
    simp only [read_ctx_need_data, decide_eq_true_eq] at hg
    obtain ⟨h1, -⟩ := Prod.mk.injEq .. ▸ (Option.some.injEq .. ▸ h)
    exact ⟨h1.symm, hg⟩
  · exact absurd h (by simp)

theorem read_ctx_read_4ubyte_eq {ctx ctx1 : ReadCtx} {v : Nat}
    (h : read_ctx_read_4ubyte ctx = some (ctx1, v)) :
    ctx1 = { ctx with ptr := ctx.ptr + 4 } ∧ ctx.ptr + 4 ≤ ctx.endp := by
  unfold read_ctx_read_4ubyte at h
  split at h
  · rename_i hg
    simp only [read_ctx_need_data, decide_eq_true_eq] at hg
    obtain ⟨h1, -⟩ := Prod.mk.injEq .. ▸ (Option.some.injEq .. ▸ h)
    exact ⟨h1.symm, hg⟩
  · exact absurd h (by simp)

theorem read_ctx_read_8ubyte_eq {ctx ctx1 : ReadCtx} {v : Nat}
    (h : read_ctx_read_8ubyte ctx = some (ctx1, v)) :
    ctx1 = { ctx with ptr := ctx.ptr + 8 } ∧ ctx.ptr + 8 ≤ ctx.endp := by
  unfold read_ctx_read_8ubyte at h
  split at h
  · rename_i hg
    simp only [read_ctx_need_data, decide_eq_true_eq] at hg
    obtain ⟨h1, -⟩ := Prod.mk.injEq .. ▸ (Option.some.injEq .. ▸ h)
    exact ⟨h1.symm, hg⟩
  · exact absurd h (by simp)

theorem read_ctx_read_offset_eq {ctx ctx1 : ReadCtx} {d : Bool} {v : Nat}
    (h : read_ctx_read_offset ctx d = some (ctx1, v)) :
    ctx1 = { ctx with ptr := ctx.ptr + (if d then 8 else 4) } ∧
      ctx.ptr + (if d then 8 else 4) ≤ ctx.endp := by
  unfold read_ctx_read_offset at h
  cases d with
  | true => simpa using read_ctx_read_8ubyte_eq h
  | false => simpa using read_ctx_read_4ubyte_eq h

theorem read_ctx_skip_eq {ctx ctx1 : ReadCtx} {n : Nat}
    (h : read_ctx_skip ctx n = some ctx1) :
    ctx1 = { ctx with ptr := ctx.ptr + n } ∧ ctx.ptr + n ≤ ctx.endp := by
  unfold read_ctx_skip at h
  split at h
  · rename_i hg
    simp only [read_ctx_need_data, decide_eq_true_eq] at hg
    exact ⟨(Option.some.injEq .. ▸ h).symm, hg⟩
  · exact absurd h (by simp)
open Dwarflint
theorem and128_eq (b : Nat) : b &&& 128 = (b / 128 % 2) * 128 := by
  have h : b &&& 2 ^ 7 = (b.testBit 7).toNat * 2 ^ 7 := Nat.and_two_pow b 7
  rw [Nat.testBit_to_div_mod] at h
  norm_num at h ⊢
  rcases Nat.mod_two_eq_zero_or_one (b / 128) with h2 | h2 <;> simp [h2] at h ⊢ <;> omega
theorem and128_lt (b : Nat) (h : b < 128) : b &&& 128 = 0 := by
  rw [and128_eq]; omega
theorem and128_ge (b : Nat) (h1 : 128 ≤ b) (h2 : b < 256) : b &&& 128 = 128 := by
  rw [and128_eq]
  have : b / 128 = 1 := by omega
  simp [this]
theorem lor_add (r p s : Nat) (h : r < 2 ^ s) : r ||| p <<< s = r + p * 2 ^ s := by
  rw [Nat.shiftLeft_eq, Nat.lor_comm, Nat.mul_comm, ← Nat.mul_add_lt_is_or h p]
  ring

theorem uleb_go_wf (bs : List Nat) :
    ∀ (ctx : ReadCtx) (fuel m result : Nat),
    uleb_wf bs = true →
    (∀ i, i < bs.length → byteAt ctx (ctx.ptr + i) = bs.getD i 0) →
    ctx.ptr + bs.length ≤ ctx.endp →
    m + bs.length ≤ 9 →
    bs.length ≤ fuel →
    result < 2 ^ (7 * m) →
    read_ctx_read_uleb128_go fuel ctx result (7 * m) =
      ({ ctx with ptr := ctx.ptr + bs.length },
       some ((decide (uleb_last bs = 0) && decide (0 < m ∨ 1 < bs.length)),
             result + uleb_spec_value bs * 2 ^ (7 * m))) := by
  induction bs with
  | nil => intro _ _ _ _ hwf; simp [uleb_wf] at hwf
  | cons b rest ih =>
    intro ctx fuel m result hwf hw hend hm hfuel hres
    obtain ⟨f, rfl⟩ : ∃ f, fuel = f + 1 := by
      cases fuel with
      | zero => simp at hfuel
      | succ f => exact ⟨f, rfl⟩
    have hb : byteAt ctx ctx.ptr = b := by simpa using hw 0 (by simp)
    have hend1 : ctx.ptr + 1 ≤ ctx.endp := by simp at hend; omega
    have hub : read_ctx_read_ubyte ctx = some ({ ctx with ptr := ctx.ptr + 1 }, b) := by
      unfold read_ctx_read_ubyte
      rw [if_pos, hb]
      simpa [read_ctx_need_data] using hend1
    rw [read_ctx_read_uleb128_go, hub]
    dsimp only
    cases rest with
    | nil =>
      have hblt : b < 128 := by simpa [uleb_wf] using hwf
      have hlt64 : ¬ (64 < 7 * m + 7) := by simp at hm; omega
      rw [if_neg hlt64, if_pos (and128_lt b hblt)]
      have hpay : b % 128 = b := Nat.mod_eq_of_lt hblt
      have hres1 : (result ||| (b % 128) <<< (7 * m)) % 2 ^ 64
          = result + b * 2 ^ (7 * m) := by
        rw [hpay, lor_add _ _ _ hres, Nat.mod_eq_of_lt]
        have h2 : (2 : Nat) ^ (7 * m) * 128 ≤ 2 ^ 64 := by
          have h3 : (2 : Nat) ^ (7 * m) ≤ 2 ^ 56 :=
            Nat.pow_le_pow_right (by norm_num) (by simp at hm; omega)
          calc 2 ^ (7 * m) * 128 ≤ 2 ^ 56 * 128 := by omega
          _ ≤ 2 ^ 64 := by norm_num
        nlinarith [hres, hblt]
      rw [hres1]
      have hzt : (decide (b % 128 = 0) && decide (0 < 7 * m))
          = (decide (uleb_last [b] = 0) && decide (0 < m ∨ 1 < [b].length)) := by
        simp only [uleb_last, List.length_cons, List.length_nil]
        congr 1
        · exact decide_eq_decide.mpr (by rw [hpay])
        · exact decide_eq_decide.mpr (by omega)
      rw [hzt]
      have hval : b * 2 ^ (7 * m) = uleb_spec_value [b] * 2 ^ (7 * m) := by
        simp [uleb_spec_value, hpay]
      rw [hval]
      simp
    | cons c rest2 =>
      have hwf' : (128 ≤ b ∧ b < 256) ∧ uleb_wf (c :: rest2) = true := by
        simpa [uleb_wf] using hwf
      have hlen : (b :: c :: rest2).length = (c :: rest2).length + 1 := by simp
      have hm' : m ≤ 7 := by simp at hm; omega
      have hlt64 : ¬ (64 < 7 * m + 7) := by omega
      rw [if_neg hlt64]
      have hand : ¬ (b &&& 128 = 0) := by
        rw [and128_ge b hwf'.1.1 hwf'.1.2]; omega
      rw [if_neg hand]
      have hres1 : (result ||| (b % 128) <<< (7 * m)) % 2 ^ 64
          = result + (b % 128) * 2 ^ (7 * m) := by
        rw [lor_add _ _ _ hres, Nat.mod_eq_of_lt]
        have h2 : (2 : Nat) ^ (7 * m) * 128 ≤ 2 ^ 64 := by
          have h3 : (2 : Nat) ^ (7 * m) ≤ 2 ^ 56 :=
            Nat.pow_le_pow_right (by norm_num) (by omega)
          calc 2 ^ (7 * m) * 128 ≤ 2 ^ 56 * 128 := by omega
          _ ≤ 2 ^ 64 := by norm_num
        nlinarith [hres, Nat.mod_lt b (show 0 < 128 by norm_num)]
      rw [hres1]
      have hstep : 7 * m + 7 = 7 * (m + 1) := by ring
      rw [hstep]
      have hresb : result + (b % 128) * 2 ^ (7 * m) < 2 ^ (7 * (m + 1)) := by
        have hp : (2 : Nat) ^ (7 * (m + 1)) = 2 ^ (7 * m) * 128 := by
          rw [show 7 * (m + 1) = 7 * m + 7 by ring, pow_add]; norm_num
        rw [hp]
        nlinarith [hres, Nat.mod_lt b (show 0 < 128 by norm_num)]
      have hihres := ih { ctx with ptr := ctx.ptr + 1 } f (m + 1)
        (result + (b % 128) * 2 ^ (7 * m)) hwf'.2
        (by
          intro i hi
          have := hw (i + 1) (by simp at hi ⊢; omega)
          simp only [List.getD_cons_succ] at this
          simpa [Nat.add_assoc, Nat.add_comm 1 i] using this)
        (by simp at hend ⊢; omega)
        (by simp at hm ⊢; omega)
        (by simp at hfuel ⊢; omega)
        hresb
      rw [hihres]
      have hzt : (decide (uleb_last (c :: rest2) = 0)
            && decide (0 < m + 1 ∨ 1 < (c :: rest2).length))
          = (decide (uleb_last (b :: c :: rest2) = 0)
            && decide (0 < m ∨ 1 < (b :: c :: rest2).length)) := by
        have h2 : decide (0 < m + 1 ∨ 1 < (c :: rest2).length)
            = decide (0 < m ∨ 1 < (b :: c :: rest2).length) :=
          decide_eq_decide.mpr (by simp only [List.length_cons]; omega)
        rw [h2]
        rfl
      have hval : result + (b % 128) * 2 ^ (7 * m)
            + uleb_spec_value (c :: rest2) * 2 ^ (7 * (m + 1))
          = result + uleb_spec_value (b :: c :: rest2) * 2 ^ (7 * m) := by
        have hp : (2 : Nat) ^ (7 * (m + 1)) = 2 ^ (7 * m) * 128 := by
          rw [show 7 * (m + 1) = 7 * m + 7 by ring, pow_add]; norm_num
        rw [hp, show uleb_spec_value (b :: c :: rest2)
          = b % 128 + 128 * uleb_spec_value (c :: rest2) from rfl]
        ring
      dsimp only
      rw [hzt, hval]
      refine Prod.ext ?_ rfl
      simp only [ReadCtx.mk.injEq, true_and, List.length_cons]
      omega



theorem uleb_wf_cont (bs : List Nat) : uleb_wf bs = true →
    ∀ i, i + 1 < bs.length → 128 ≤ bs.getD i 0 ∧ bs.getD i 0 < 256 := by
  induction bs with
  | nil => simp [uleb_wf]
  | cons b rest ih =>
    intro hwf i hi
    cases rest with
    | nil => simp at hi
    | cons c r2 =>
      have h' : (128 ≤ b ∧ b < 256) ∧ uleb_wf (c :: r2) = true := by
        simpa [uleb_wf] using hwf
      cases i with
      | zero => simpa using h'.1
      | succ j =>
        have := ih h'.2 j (by simp at hi ⊢; omega)
        simpa using this

theorem uleb_go_overflow : ∀ (k : Nat) (ctx : ReadCtx) (fuel m result : Nat),
    m + k = 10 →
    k ≤ fuel →
    (∀ i, i + 1 < k → 128 ≤ byteAt ctx (ctx.ptr + i)) →
    ctx.ptr + k ≤ ctx.endp →
    (read_ctx_read_uleb128_go fuel ctx result (7 * m)).2 = none := by
  intro k
  induction k with
  | zero =>
    intro ctx fuel m result hmk _ _ _
    have hm : m = 10 := by omega
    subst hm
    cases fuel with
    | zero => simp [read_ctx_read_uleb128_go]
    | succ f =>
      rw [read_ctx_read_uleb128_go]
      cases h : read_ctx_read_ubyte ctx with
      | none => simp [h]
      | some p =>
        obtain ⟨c1, byte⟩ := p
        simp only [h]
        rw [if_pos (by norm_num)]
  | succ j ih =>
    intro ctx fuel m result hmk hfuel hcont hend
    obtain ⟨f, rfl⟩ : ∃ f, fuel = f + 1 := by
      cases fuel with
      | zero => omega
      | succ f => exact ⟨f, rfl⟩
    have hub : read_ctx_read_ubyte ctx
        = some ({ ctx with ptr := ctx.ptr + 1 }, byteAt ctx ctx.ptr) := by
      unfold read_ctx_read_ubyte
      rw [if_pos]
      simp only [read_ctx_need_data, decide_eq_true_eq]
      omega
    rw [read_ctx_read_uleb128_go, hub]
    dsimp only
    by_cases hj : j = 0
    · -- the 10th byte: the shift check fires before the terminator test
      subst hj
      have hm9 : m = 9 := by omega
      subst hm9
      rw [if_pos (by norm_num)]
    · have hm8 : m ≤ 8 := by omega
      rw [if_neg (by omega)]
      have hbyte : 128 ≤ byteAt ctx ctx.ptr := by
        have := hcont 0 (by omega)
        simpa using this
      have hblt : byteAt ctx ctx.ptr < 256 := Nat.mod_lt _ (by norm_num)
      rw [if_neg (by rw [and128_ge _ hbyte hblt]; omega)]
      rw [show 7 * m + 7 = 7 * (m + 1) by ring]
      exact ih { ctx with ptr := ctx.ptr + 1 } f (m + 1) _ (by omega) (by omega)
        (by
          intro i hi
          have := hcont (i + 1) (by omega)
          simpa [Nat.add_assoc, Nat.add_comm 1 i] using this)
        (by simp; omega)

theorem sleb_go_wf (bs : List Nat) :
    ∀ (ctx : ReadCtx) (fuel m result : Nat) (sg : Bool),
    uleb_wf bs = true →
    (∀ i, i < bs.length → byteAt ctx (ctx.ptr + i) = bs.getD i 0) →
    ctx.ptr + bs.length ≤ ctx.endp →
    m + bs.length ≤ 10 →
    bs.length ≤ fuel →
    (read_ctx_read_sleb128_go fuel ctx result (7 * m) sg).1
        = { ctx with ptr := ctx.ptr + bs.length } ∧
    ((read_ctx_read_sleb128_go fuel ctx result (7 * m) sg).2.map Prod.fst)
      = some (decide (0 < m ∨ 1 < bs.length)
          && sleb_fill_match (sleb_prev_sign sg bs) (uleb_last bs % 128)) := by
  induction bs with
  | nil => intro _ _ _ _ _ hwf; simp [uleb_wf] at hwf
  | cons b rest ih =>
    intro ctx fuel m result sg hwf hw hend hm hfuel
    obtain ⟨f, rfl⟩ : ∃ f, fuel = f + 1 := by
      cases fuel with
      | zero => simp at hfuel
      | succ f => exact ⟨f, rfl⟩
    have hb : byteAt ctx ctx.ptr = b := by simpa using hw 0 (by simp)
    have hub : read_ctx_read_ubyte ctx = some ({ ctx with ptr := ctx.ptr + 1 }, b) := by
      unfold read_ctx_read_ubyte
      rw [if_pos, hb]
      simp only [read_ctx_need_data, decide_eq_true_eq]
      simp at hend; omega
    rw [read_ctx_read_sleb128_go, hub]
    dsimp only
    cases rest with
    | nil =>
      have hblt : b < 128 := by simpa [uleb_wf] using hwf
      rw [if_pos (and128_lt b hblt)]
      refine ⟨by simp, ?_⟩
      have h2 : decide (0 < 7 * m) = decide (0 < m ∨ 1 < [b].length) :=
        decide_eq_decide.mpr (by simp only [List.length_cons, List.length_nil]; omega)
      rw [h2]
      rfl
    | cons c rest2 =>
      have hwf' : (128 ≤ b ∧ b < 256) ∧ uleb_wf (c :: rest2) = true := by
        simpa [uleb_wf] using hwf
      have hm' : m ≤ 8 := by simp at hm; omega
      rw [if_neg (by rw [and128_ge b hwf'.1.1 hwf'.1.2]; omega)]
      rw [if_neg (by omega)]
      rw [show 7 * m + 7 = 7 * (m + 1) by ring]
      have hih := ih { ctx with ptr := ctx.ptr + 1 } f (m + 1)
        ((result ||| (b % 128) <<< (7 * m)) % 2 ^ 64) (decide (b &&& 0x40 ≠ 0)) hwf'.2
        (by
          intro i hi
          have := hw (i + 1) (by simp at hi ⊢; omega)
          simp only [List.getD_cons_succ] at this
          simpa [Nat.add_assoc, Nat.add_comm 1 i] using this)
        (by simp at hend ⊢; omega)
        (by simp at hm ⊢; omega)
        (by simp at hfuel ⊢; omega)
      refine ⟨?_, ?_⟩
      · rw [hih.1]
        simp only [ReadCtx.mk.injEq, true_and, List.length_cons]
        omega
      · rw [hih.2]
        congr 1
        have h2 : decide (0 < m + 1 ∨ 1 < (c :: rest2).length)
            = decide (0 < m ∨ 1 < (b :: c :: rest2).length) :=
          decide_eq_decide.mpr (by simp only [List.length_cons]; omega)
        rw [h2]
        rfl

/-- **C1** counterexample: the one-byte input `0x80` is a ULEB128
encoding truncated mid-way; `read_ctx_read_uleb128` fails (status `-1`)
but exits with `ptr` advanced from 0 to 1, not unchanged as the claim
states. -/
theorem C1_counterexample :
    (read_ctx_read_uleb128 ⟨[0x80], false, 0, 1, 0⟩).2 = none ∧
    (read_ctx_read_uleb128 ⟨[0x80], false, 0, 1, 0⟩).1.ptr = 1 := by decide

/-- **C1** (amended): fixed-width reads and `skip` advance by exactly
their width and stay within `end` (on failure the C function returns
before touching `ptr`); the ULEB128/SLEB128 reads may advance `ptr`
even on failure, but never past `end`. -/
theorem C1_theorem (ctx : ReadCtx) (h : ctx.ptr ≤ ctx.endp) :
    (∀ ctx1 v, read_ctx_read_ubyte ctx = some (ctx1, v) →
      ctx1.ptr = ctx.ptr + 1 ∧ ctx1.ptr ≤ ctx.endp) ∧
    (∀ ctx1 v, read_ctx_read_2ubyte ctx = some (ctx1, v) →
      ctx1.ptr = ctx.ptr + 2 ∧ ctx1.ptr ≤ ctx.endp) ∧
    (∀ ctx1 v, read_ctx_read_4ubyte ctx = some (ctx1, v) →
      ctx1.ptr = ctx.ptr + 4 ∧ ctx1.ptr ≤ ctx.endp) ∧
    (∀ ctx1 v, read_ctx_read_8ubyte ctx = some (ctx1, v) →
      ctx1.ptr = ctx.ptr + 8 ∧ ctx1.ptr ≤ ctx.endp) ∧
    (∀ d ctx1 v, read_ctx_read_offset ctx d = some (ctx1, v) → ctx1.ptr ≤ ctx.endp) ∧
    (∀ n ctx1, read_ctx_skip ctx n = some ctx1 →
      ctx1.ptr = ctx.ptr + n ∧ ctx1.ptr ≤ ctx.endp) ∧
    (ctx.ptr ≤ (read_ctx_read_uleb128 ctx).1.ptr ∧
      (read_ctx_read_uleb128 ctx).1.ptr ≤ ctx.endp) ∧
    (ctx.ptr ≤ (read_ctx_read_sleb128 ctx).1.ptr ∧
      (read_ctx_read_sleb128 ctx).1.ptr ≤ ctx.endp) := by
  refine ⟨?_, ?_, ?_, ?_, ?_, ?_, ?_, ?_⟩
  · intro ctx1 v hh
    obtain ⟨h1, h2, -⟩ := read_ctx_read_ubyte_eq hh
    subst h1; exact ⟨rfl, h2⟩
  · intro ctx1 v hh
    obtain ⟨h1, h2⟩ := read_ctx_read_2ubyte_eq hh
    subst h1; exact ⟨rfl, h2⟩
  · intro ctx1 v hh
    obtain ⟨h1, h2⟩ := read_ctx_read_4ubyte_eq hh
    subst h1; exact ⟨rfl, h2⟩
  · intro ctx1 v hh
    obtain ⟨h1, h2⟩ := read_ctx_read_8ubyte_eq hh
    subst h1; exact ⟨rfl, h2⟩
  · intro d ctx1 v hh
    obtain ⟨h1, h2⟩ := read_ctx_read_offset_eq hh
    subst h1; simpa using h2
  · intro n ctx1 hh
    obtain ⟨h1, h2⟩ := read_ctx_skip_eq hh
    subst h1; exact ⟨rfl, h2⟩
  · have hh := uleb_go_ctx (ctx.endp - ctx.ptr + 1) ctx 0 0
    exact ⟨hh.2.2.2.2.1, hh.2.2.2.2.2.1 h⟩
  · have hh := sleb_go_ctx (ctx.endp - ctx.ptr + 1) ctx 0 0 false
    exact ⟨hh.2.2.2.2.1, hh.2.2.2.2.2.1 h⟩

theorem C1_witness :
    (read_ctx_read_uleb128 ⟨[0x80], false, 0, 1, 0⟩).1.ptr ≤ 1 :=
  (C1_theorem ⟨[0x80], false, 0, 1, 0⟩ (by decide)).2.2.2.2.2.2.1.2

/-- **C2** counterexample: the 10-byte well-formed ULEB128 encoding of
`2^63` (nine `0x80` continuation bytes, then `0x01`).  The claim says
status 0 and value `2^63`; the decoder returns status `-1` because the
`shift > 64` check fires on the tenth group before the continuation
bit is tested. -/
theorem C2_counterexample :
    uleb_wf [0x80, 0x80, 0x80, 0x80, 0x80, 0x80, 0x80, 0x80, 0x80, 0x01] = true ∧
    uleb_spec_value [0x80, 0x80, 0x80, 0x80, 0x80, 0x80, 0x80, 0x80, 0x80, 0x01]
      = 2 ^ 63 ∧
    (read_ctx_read_uleb128
      ⟨[0x80, 0x80, 0x80, 0x80, 0x80, 0x80, 0x80, 0x80, 0x80, 0x01],
        false, 0, 10, 0⟩).2 = none := by decide

/-- **C2** (amended): a well-formed ULEB128 encoding of at most nine
bytes decodes to its value, with status `+1` exactly when the final
group's payload is 0 and it is not the first group; every encoding of
ten or more bytes — including those of values in `[2^63, 2^64)` — is
rejected with status `-1`. -/
theorem C2_theorem (bs : List Nat) (ctx : ReadCtx)
    (hwf : uleb_wf bs = true)
    (hw : ∀ i ∈ List.range bs.length, byteAt ctx (ctx.ptr + i) = bs.getD i 0)
    (hend : ctx.ptr + bs.length ≤ ctx.endp) :
    (bs.length ≤ 9 →
      read_ctx_read_uleb128 ctx =
        ({ ctx with ptr := ctx.ptr + bs.length },
         some (decide (uleb_last bs = 0) && decide (1 < bs.length),
           uleb_spec_value bs))) ∧
    (10 ≤ bs.length → (read_ctx_read_uleb128 ctx).2 = none) := by
  constructor
  · intro h9
    have hlen0 : bs ≠ [] := by
      intro he; rw [he] at hwf; simp [uleb_wf] at hwf
    have hh := uleb_go_wf bs ctx (ctx.endp - ctx.ptr + 1) 0 0 hwf
      (fun i hi => hw i (List.mem_range.mpr hi)) hend (by omega)
      (by have := List.length_pos.mpr hlen0; omega) (by norm_num)
    have hgoal : read_ctx_read_uleb128 ctx
        = read_ctx_read_uleb128_go (ctx.endp - ctx.ptr + 1) ctx 0 (7 * 0) := rfl
    rw [hgoal, hh]
    have e1 : decide ((0 : Nat) < 0 ∨ 1 < bs.length) = decide (1 < bs.length) :=
      decide_eq_decide.mpr (by omega)
    rw [e1]
    norm_num
  · intro h10
    have hh := uleb_go_overflow 10 ctx (ctx.endp - ctx.ptr + 1) 0 0 (by omega)
      (by omega)
      (by
        intro i hi
        have hc := uleb_wf_cont bs hwf i (by omega)
        have hwi := hw i (List.mem_range.mpr (by omega))
        omega)
      (by omega)
    exact hh

theorem C2_witness :
    read_ctx_read_uleb128 ⟨[0x81, 0x00], false, 0, 2, 0⟩
      = (⟨[0x81, 0x00], false, 0, 2, 2⟩, some (true, 1)) :=
  (C2_theorem [0x81, 0x00] ⟨[0x81, 0x00], false, 0, 2, 0⟩ (by decide)
    (by decide) (by decide)).1 (by decide)

/-- **C9** counterexample: `[0x80, 0x7f]` decodes to `-128`; its
trailing group payload `0x7f` equals the sign-fill byte of the negative
result and it is not the first group, so the claim demands status `+1`
— but the code returns status 0 (the encoding is in fact minimal; the
code compares against the *previous* group's sign bit, which is 0
here). -/
theorem C9_counterexample :
    (read_ctx_read_sleb128 ⟨[0x80, 0x7f], false, 0, 2, 0⟩).2
      = some (false, 0xFFFFFFFFFFFFFF80) ∧
    toInt64 0xFFFFFFFFFFFFFF80 = -128 := by decide

/-- **C9** (amended): for a well-formed SLEB128 encoding of at most ten
bytes, the status is `+1` exactly when the trailing group is not the
first group and its payload equals the sign-fill chosen by the
*preceding* group's sign bit (`0x7f` when the preceding byte had bit
0x40 set, `0x00` when clear). -/
theorem C9_theorem (bs : List Nat) (ctx : ReadCtx)
    (hwf : uleb_wf bs = true)
    (hw : ∀ i ∈ List.range bs.length, byteAt ctx (ctx.ptr + i) = bs.getD i 0)
    (hend : ctx.ptr + bs.length ≤ ctx.endp)
    (hlen : bs.length ≤ 10) :
    (read_ctx_read_sleb128 ctx).1 = { ctx with ptr := ctx.ptr + bs.length } ∧
    ((read_ctx_read_sleb128 ctx).2.map Prod.fst)
      = some (decide (1 < bs.length)
          && sleb_fill_match (sleb_prev_sign false bs) (uleb_last bs % 128)) := by
  have hh := sleb_go_wf bs ctx (ctx.endp - ctx.ptr + 1) 0 0 false hwf
    (fun i hi => hw i (List.mem_range.mpr hi)) hend (by omega)
    (by
      have : bs ≠ [] := by intro he; rw [he] at hwf; simp [uleb_wf] at hwf
      have := List.length_pos.mpr this; omega)
  have hgoal : read_ctx_read_sleb128 ctx
      = read_ctx_read_sleb128_go (ctx.endp - ctx.ptr + 1) ctx 0 (7 * 0) false := rfl
  rw [hgoal]
  refine ⟨hh.1, ?_⟩
  rw [hh.2]
  congr 1
  have e1 : decide ((0 : Nat) < 0 ∨ 1 < bs.length) = decide (1 < bs.length) :=
    decide_eq_decide.mpr (by omega)
  rw [e1]

theorem C9_witness :
    ((read_ctx_read_sleb128 ⟨[0x81, 0x00], false, 0, 2, 0⟩).2.map Prod.fst)
      = some true :=
  (C9_theorem [0x81, 0x00] ⟨[0x81, 0x00], false, 0, 2, 0⟩ (by decide)
    (by decide) (by decide) (by decide)).2

/-- **C3** counterexample: a CU-local reference value exactly equal to
the CU sub-reader length (`0x100`) is *accepted* and recorded (the code
checks `addr > len`, not `addr ≥ len`), where the claim demands
rejection of every value not less than the length. -/
theorem C3_counterexample :
    record_ref 0x1000 0x100 [] (some []) 0x100 7 true
        ⟨default_warning_criteria, 0, []⟩
      = ([], some [⟨0x1100, 7⟩], ⟨default_warning_criteria, 0, []⟩) := by decide

/-- **C3** (amended): a CU-local reference is rejected with the
"invalid reference outside the CU" error and not recorded exactly when
its value exceeds (strictly) the CU sub-reader's length; every value
less than *or equal to* the length is recorded as
`value + cu.section_offset`. -/
theorem C3_theorem (cuOff len : Nat) (refs locs : List Ref) (addr who : Nat)
    (st : DwState) :
    (len < addr →
      record_ref cuOff len refs (some locs) addr who true st
        = (refs, some locs, wr_error .refOutsideCU st)) ∧
    (addr ≤ len →
      record_ref cuOff len refs (some locs) addr who true st
        = (refs, some (locs ++ [⟨addr + cuOff, who⟩]), st)) := by
  constructor
  · intro h
    simp [record_ref, h]
  · intro h
    simp [record_ref, ref_record_add, Nat.not_lt.mpr h]

theorem C3_witness :
    record_ref 0x1000 0x100 [] (some []) 0xff 7 true ⟨default_warning_criteria, 0, []⟩
      = ([], some [⟨0x10ff, 7⟩], ⟨default_warning_criteria, 0, []⟩) :=
  (C3_theorem 0x1000 0x100 [] [] 0xff 7 ⟨default_warning_criteria, 0, []⟩).2
    (by decide)

/-- **C5** counterexample: an accepted message of category
`mc_impact_2 | mc_aranges` is printed with severity "warning"
(`false` tag in the log) yet increments the global error counter, and a
run whose only diagnostic it is exits with code 1, not 0. -/
theorem C5_counterexample :
    (vmessage (mc_impact_2 ||| mc_aranges) .arNonzeroPadding
        ⟨default_warning_criteria, 0, []⟩).errorCount = 1 ∧
    (vmessage (mc_impact_2 ||| mc_aranges) .arNonzeroPadding
        ⟨default_warning_criteria, 0, []⟩).log = [(false, .arNonzeroPadding)] ∧
    dwarflint_exit_code (vmessage (mc_impact_2 ||| mc_aranges) .arNonzeroPadding
        ⟨default_warning_criteria, 0, []⟩) = 1 := by decide

/-- **C5** (amended): an accepted message is printed as "error" iff its
category matches `error_criteria`; *both* printed severities increment
the global error counter (`vwarning` also does `++error_count`), and
the exit code is zero iff the counter is zero — so a run that prints
only warnings exits nonzero. -/
theorem C5_theorem (st : DwState) (cat : Nat) (id : MsgId) :
    (accept_message st.warningCriteria cat = true →
      accept_message error_criteria cat = false →
      vmessage cat id st
        = ⟨st.warningCriteria, st.errorCount + 1, st.log ++ [(false, id)]⟩) ∧
    (accept_message st.warningCriteria cat = true →
      accept_message error_criteria cat = true →
      vmessage cat id st
        = ⟨st.warningCriteria, st.errorCount + 1, st.log ++ [(true, id)]⟩) ∧
    (dwarflint_exit_code st = 0 ↔ st.errorCount = 0) := by
  refine ⟨?_, ?_, ?_⟩
  · intro h1 h2
    simp [vmessage, h1, h2, vwarning]
  · intro h1 h2
    simp [vmessage, h1, h2, verror]
  · unfold dwarflint_exit_code
    split <;> simp_all

theorem C5_witness :
    vmessage (mc_impact_2 ||| mc_aranges) .arNonzeroPadding
        ⟨default_warning_criteria, 0, []⟩
      = ⟨default_warning_criteria, 1, [(false, .arNonzeroPadding)]⟩ :=
  (C5_theorem ⟨default_warning_criteria, 0, []⟩ (mc_impact_2 ||| mc_aranges)
    .arNonzeroPadding).1 (by decide) (by decide)

/-- **C10**: `wr_error` prints (as "error") and increments the global
error counter unconditionally, for every configuration of the
accept/reject criteria carried in the state; only the
category-filtered `message`/`vmessage` path consults the masks, and a
rejected category leaves the state untouched. -/
theorem C10_theorem (st : DwState) (id : MsgId) (cat : Nat) :
    (wr_error id st).log = st.log ++ [(true, id)] ∧
    (wr_error id st).errorCount = st.errorCount + 1 ∧
    (accept_message st.warningCriteria cat = false → vmessage cat id st = st) := by
  refine ⟨rfl, rfl, ?_⟩
  intro h
  simp [vmessage, h]

theorem C10_witness :
    (wr_error .refOutsideCU ⟨⟨0, 0⟩, 0, []⟩).errorCount = 1 ∧
    vmessage mc_aranges .arNonzeroPadding ⟨⟨0, 0⟩, 0, []⟩ = ⟨⟨0, 0⟩, 0, []⟩ :=
  ⟨(C10_theorem ⟨⟨0, 0⟩, 0, []⟩ .refOutsideCU mc_aranges).2.1,
   (C10_theorem ⟨⟨0, 0⟩, 0, []⟩ .arNonzeroPadding mc_aranges).2.2 (by decide)⟩

theorem cmp_abbrs_le_iff (a b : Abbrev) (ha : a.code < 2 ^ 31) (hb : b.code < 2 ^ 31) :
    cmp_abbrs a b ≤ 0 ↔ a.code ≤ b.code := by
  unfold cmp_abbrs toInt32 usub64
  have h1 : a.code % 2 ^ 64 = a.code := Nat.mod_eq_of_lt (by omega)
  have h2 : b.code % 2 ^ 64 = b.code := Nat.mod_eq_of_lt (by omega)
  rw [h1, h2]
  split <;> rename_i hs <;> omega

theorem mem_insert_by_cmp (a x : Abbrev) (l : List Abbrev) :
    x ∈ insert_by_cmp a l ↔ x = a ∨ x ∈ l := by
  induction l with
  | nil => simp [insert_by_cmp]
  | cons b rest ih =>
    unfold insert_by_cmp
    split
    · simp only [List.mem_cons, ih]
      tauto
    · simp only [List.mem_cons]

theorem pairwise_insert_by_cmp (a : Abbrev) (l : List Abbrev)
    (ha : a.code < 2 ^ 31) (hl : ∀ x ∈ l, x.code < 2 ^ 31)
    (hp : List.Pairwise (fun x y => x.code ≤ y.code) l) :
    List.Pairwise (fun x y => x.code ≤ y.code) (insert_by_cmp a l) := by
  induction l with
  | nil => simp [insert_by_cmp]
  | cons b rest ih =>
    have hb : b.code < 2 ^ 31 := hl b (by simp)
    have hrest : ∀ x ∈ rest, x.code < 2 ^ 31 := fun x hx => hl x (by simp [hx])
    rw [List.pairwise_cons] at hp
    unfold insert_by_cmp
    split <;> rename_i hc
    · have hba : b.code ≤ a.code := (cmp_abbrs_le_iff b a hb ha).mp hc
      rw [List.pairwise_cons]
      constructor
      · intro x hx
        rcases (mem_insert_by_cmp a x rest).mp hx with h | h
        · subst h; exact hba
        · exact hp.1 x h
      · exact ih hrest hp.2
    · have hab : a.code ≤ b.code := by
        have := (cmp_abbrs_le_iff b a hb ha).not.mp hc
        omega
      rw [List.pairwise_cons]
      constructor
      · intro x hx
        simp at hx
        rcases hx with h | h
        · subst h; exact hab
        · exact le_trans hab (hp.1 x h)
      · exact List.pairwise_cons.mpr hp

theorem mem_sort_go (l : List Abbrev) : ∀ (acc : List Abbrev) (x : Abbrev),
    x ∈ l.foldl (fun acc a => insert_by_cmp a acc) acc ↔ x ∈ acc ∨ x ∈ l := by
  induction l with
  | nil => simp
  | cons a rest ih =>
    intro acc x
    simp only [List.foldl_cons, ih, mem_insert_by_cmp, List.mem_cons]
    tauto

theorem mem_sort_abbrevs (l : List Abbrev) (x : Abbrev) :
    x ∈ sort_abbrevs l ↔ x ∈ l := by
  unfold sort_abbrevs
  rw [mem_sort_go]
  simp

theorem sort_go_pairwise : ∀ (l acc : List Abbrev),
    (∀ x ∈ l, x.code < 2 ^ 31) → (∀ x ∈ acc, x.code < 2 ^ 31) →
    List.Pairwise (fun x y => x.code ≤ y.code) acc →
    List.Pairwise (fun x y => x.code ≤ y.code)
      (l.foldl (fun acc a => insert_by_cmp a acc) acc) := by
  intro l
  induction l with
  | nil => intro acc _ _ hp; simpa using hp
  | cons a rest ih =>
    intro acc hl hacc hp
    simp only [List.foldl_cons]
    apply ih
    · intro x hx
      exact hl x (by simp [hx])
    · intro x hx
      rcases (mem_insert_by_cmp a x acc).mp hx with h | h
      · subst h; exact hl x (by simp)
      · exact hacc x h
    · exact pairwise_insert_by_cmp a acc (hl a (by simp)) hacc hp

theorem sort_abbrevs_pairwise (l : List Abbrev) (h : ∀ x ∈ l, x.code < 2 ^ 31) :
    List.Pairwise (fun x y => x.code ≤ y.code) (sort_abbrevs l) :=
  sort_go_pairwise l [] h (by simp) (by simp)

/-- **C6** counterexample: a `.debug_abbrev` input declaring codes
`2^31 + 1`, `1`, `1` in that order.  The loader returns a single table
whose abbrev array is `[2^31 + 1, 1, 1]` — not sorted by code (the
`qsort` comparator truncates the `uint64` code difference to `int`, so
`cmp(2^31 + 1, 1) = INT_MIN < 0`), and with the duplicate code `1`
retained twice (no duplicate check exists). -/
theorem C6_counterexample :
    ((abbrev_table_load (mk_read_ctx
        [0x81, 0x80, 0x80, 0x80, 0x08, 0x11, 0, 0, 0,
         1, 0x11, 0, 0, 0,
         1, 0x11, 0, 0, 0] false)
      ⟨default_warning_criteria, 0, []⟩).2.map (fun t => t.abbr.map (·.code)))
      = [[2 ^ 31 + 1, 1, 1]] ∧
    ¬ List.Pairwise (fun x y => x ≤ y) [2 ^ 31 + 1, 1, 1] ∧
    ¬ List.Nodup [2 ^ 31 + 1, 1, 1] := by decide

/-- **C6** (amended): every abbrev table returned by the loader has its
abbrev array sorted by code *provided all its codes are below `2^31`*
(the comparator truncates the `uint64` difference to `int`, so larger
codes can compare inverted); entries with duplicate codes are retained,
not rejected. -/
theorem C6_theorem (ctx : ReadCtx) (st : DwState) :
    ∀ t ∈ (abbrev_table_load ctx st).2,
      (∀ ab ∈ t.abbr, ab.code < 2 ^ 31) →
      List.Pairwise (fun x y => x.code ≤ y.code) t.abbr := by
  intro t ht hsmall
  unfold abbrev_table_load at ht
  rcases hgo : abbrev_table_load_go (ctx.endp - ctx.ptr + 2) ctx st [] false
    with ⟨st1, oc⟩
  rw [hgo] at ht
  cases oc with
  | none => simp at ht
  | some chain =>
    simp only [List.mem_map] at ht
    obtain ⟨t0, _, rfl⟩ := ht
    apply sort_abbrevs_pairwise
    intro x hx
    exact hsmall x ((mem_sort_abbrevs t0.abbr x).mpr hx)

theorem C6_witness :
    List.Pairwise (fun x y => x.code ≤ y.code)
      ((abbrev_table_load (mk_read_ctx [1, 0x11, 0, 0, 0, 2, 0x11, 0, 0, 0] false)
        ⟨default_warning_criteria, 0, []⟩).2.headD ⟨0, []⟩).abbr :=
  C6_theorem (mk_read_ctx [1, 0x11, 0, 0, 0, 2, 0x11, 0, 0, 0] false)
    ⟨default_warning_criteria, 0, []⟩ _ (by decide) (by decide)

theorem checked_read_uleb128_ctx (ctx : ReadCtx) (st : DwState) :
    (checked_read_uleb128 ctx st).1.data = ctx.data ∧
    (checked_read_uleb128 ctx st).1.be = ctx.be ∧
    (checked_read_uleb128 ctx st).1.beg = ctx.beg ∧
    (checked_read_uleb128 ctx st).1.endp = ctx.endp ∧
    ctx.ptr ≤ (checked_read_uleb128 ctx st).1.ptr ∧
    ((checked_read_uleb128 ctx st).2.1.isSome = true →
      ctx.ptr < (checked_read_uleb128 ctx st).1.ptr) := by
  have h := uleb_go_ctx (ctx.endp - ctx.ptr + 1) ctx 0 0
  unfold checked_read_uleb128
  refine ⟨h.1, h.2.1, h.2.2.1, h.2.2.2.1, h.2.2.2.2.1, ?_⟩
  intro hs
  apply h.2.2.2.2.2.2
  simpa [read_ctx_read_uleb128, Option.isSome_map] using hs

theorem abbrev_scan_gotCode (fuel : Nat) : ∀ (ctx : ReadCtx) (st : DwState)
    (po pc : Nat) (zq : Option Nat) (zs : Bool)
    (ctx1 : ReadCtx) (st1 : DwState) (code off : Nat) (zs1 : Bool) (zq1 : Option Nat),
    ctx.beg ≤ ctx.ptr →
    abbrev_scan fuel ctx st po pc zq zs = .gotCode ctx1 st1 code off zs1 zq1 →
    ctx1.data = ctx.data ∧ ctx1.be = ctx.be ∧ ctx1.beg = ctx.beg ∧
      ctx1.endp = ctx.endp ∧ ctx.beg ≤ ctx1.ptr ∧
      read_ctx_get_offset ctx ≤ off ∧ off + 1 ≤ read_ctx_get_offset ctx1 := by
  induction fuel with
  | zero => intro ctx st po pc zq zs _ _ _ _ _ _ _ h; simp [abbrev_scan] at h
  | succ n ih =>
    intro ctx st po pc zq zs ctx1 st1 code off zs1 zq1 hbp h
    rw [abbrev_scan] at h
    split at h
    · simp at h
    · rcases hu : checked_read_uleb128 ctx st with ⟨cu, ov, stu⟩
      rw [hu] at h
      have hprops := checked_read_uleb128_ctx ctx st
      rw [hu] at hprops
      dsimp only at hprops
      cases ov with
      | none => simp at h
      | some code0 =>
        dsimp only at h
        have hsome : ctx.ptr < cu.ptr := by
          have := hprops.2.2.2.2.2
          simpa using this
        split at h
        · rename_i hcode
          obtain ⟨h1, h2, h3, h4, h5, h6⟩ :=
            ScanRes.gotCode.injEq .. ▸ h
          subst h1; subst h2; subst h3; subst h4
          refine ⟨hprops.1, hprops.2.1, hprops.2.2.1, hprops.2.2.2.1, by omega, le_refl _, ?_⟩
          unfold read_ctx_get_offset
          have hbeg := hprops.2.2.1
          omega
        · have hbp1 : cu.beg ≤ cu.ptr := by
            have := hprops.2.2.1
            omega
          have := ih cu stu _ _ _ _ _ _ _ _ _ _ hbp1 h
          have hbeg := hprops.2.2.1
          have hdata := hprops.1
          have hbe := hprops.2.1
          have hendp := hprops.2.2.2.1
          refine ⟨by rw [this.1, hdata], by rw [this.2.1, hbe],
            by rw [this.2.2.1, hbeg], by rw [this.2.2.2.1, hendp], ?_, ?_, ?_⟩
          · have := this.2.2.2.2.1
            omega
          · have h6 := this.2.2.2.2.2.1
            unfold read_ctx_get_offset at h6 ⊢
            omega
          · exact this.2.2.2.2.2.2

theorem abbrev_attribs_go_ctx (fuel : Nat) : ∀ (ctx : ReadCtx) (st : DwState)
    (hc : Bool) (sib : Nat) (acc : List AbbrevAttrib)
    (st1 : DwState) (ctx1 : ReadCtx) (acc1 : List AbbrevAttrib),
    abbrev_attribs_go fuel ctx st hc sib acc = (st1, some (ctx1, acc1)) →
    ctx1.data = ctx.data ∧ ctx1.be = ctx.be ∧ ctx1.beg = ctx.beg ∧
      ctx1.endp = ctx.endp ∧ ctx.ptr ≤ ctx1.ptr := by
  induction fuel with
  | zero => intro ctx st hc sib acc st1 ctx1 acc1 h; simp [abbrev_attribs_go] at h
  | succ n ih =>
    intro ctx st hc sib acc st1 ctx1 acc1 h
    rw [abbrev_attribs_go] at h
    rcases hu1 : checked_read_uleb128 ctx st with ⟨ca, ova, sta⟩
    rw [hu1] at h
    have hpa := checked_read_uleb128_ctx ctx st
    rw [hu1] at hpa
    dsimp only at hpa
    cases ova with
    | none => simp at h
    | some nameV =>
      dsimp only at h
      rcases hu2 : checked_read_uleb128 ca sta with ⟨cb, ovb, stb⟩
      rw [hu2] at h
      have hpb := checked_read_uleb128_ctx ca sta
      rw [hu2] at hpb
      dsimp only at hpb
      cases ovb with
      | none => simp at h
      | some formV =>
        dsimp only at h
        split at h
        · simp at h
        · split at h
          · simp at h
          · split at h
            · obtain ⟨-, h2⟩ := Prod.mk.injEq .. ▸ h
              obtain ⟨h3, -⟩ := Prod.mk.injEq .. ▸ (Option.some.injEq .. ▸ h2)
              subst h3
              refine ⟨by rw [hpb.1, hpa.1], by rw [hpb.2.1, hpa.2.1],
                by rw [hpb.2.2.1, hpa.2.2.1], by rw [hpb.2.2.2.1, hpa.2.2.2.1], by omega⟩
            · have := ih _ _ _ _ _ _ _ _ h
              refine ⟨by rw [this.1, hpb.1, hpa.1], by rw [this.2.1, hpb.2.1, hpa.2.1],
                by rw [this.2.2.1, hpb.2.2.1, hpa.2.2.1],
                by rw [this.2.2.2.1, hpb.2.2.2.1, hpa.2.2.2.1], by omega⟩

theorem abbrev_parse_one_ctx (fuel : Nat) (ctx : ReadCtx) (st : DwState) (code : Nat)
    (st1 : DwState) (ctx1 : ReadCtx) (ab : Abbrev)
    (h : abbrev_parse_one fuel ctx st code = (st1, some (ctx1, ab))) :
    ctx1.data = ctx.data ∧ ctx1.be = ctx.be ∧ ctx1.beg = ctx.beg ∧
      ctx1.endp = ctx.endp ∧ ctx.ptr ≤ ctx1.ptr := by
  rw [abbrev_parse_one] at h
  rcases hu1 : checked_read_uleb128 ctx st with ⟨ca, ova, sta⟩
  rw [hu1] at h
  have hpa := checked_read_uleb128_ctx ctx st
  rw [hu1] at hpa
  dsimp only at hpa
  cases ova with
  | none => simp at h
  | some tagV =>
    dsimp only at h
    split at h
    · simp at h
    · rcases hu2 : read_ctx_read_ubyte ca with _ | ⟨cb, byteV⟩
      · rw [hu2] at h; simp at h
      · rw [hu2] at h
        obtain ⟨hcb, -, -⟩ := read_ctx_read_ubyte_eq hu2
        subst hcb
        dsimp only at h
        split at h
        · simp at h
        · rcases hu3 : abbrev_attribs_go fuel
              { ca with ptr := ca.ptr + 1 } sta (byteV = DW_CHILDREN_yes) 0 []
            with ⟨stc, ovc⟩
          rw [hu3] at h
          cases ovc with
          | none => simp at h
          | some p =>
            obtain ⟨cc, attribsV⟩ := p
            have hpc := abbrev_attribs_go_ctx fuel _ _ _ _ _ _ _ _ hu3
            dsimp only at h
            obtain ⟨-, h2⟩ := Prod.mk.injEq .. ▸ h
            obtain ⟨h3, -⟩ := Prod.mk.injEq .. ▸ (Option.some.injEq .. ▸ h2)
            subst h3
            refine ⟨by rw [hpc.1]; exact hpa.1, by rw [hpc.2.1]; exact hpa.2.1,
              by rw [hpc.2.2.1]; exact hpa.2.2.1,
              by rw [hpc.2.2.2.1]; exact hpa.2.2.2.1, ?_⟩
            have := hpc.2.2.2.2
            dsimp only at this
            omega

theorem chain_append_abbrev_offsets (chain : List AbbrevTable) (ab : Abbrev) :
    (chain_append_abbrev chain ab).map (·.offset) = chain.map (·.offset) := by
  cases chain <;> simp [chain_append_abbrev]

theorem load_go_offsets (fuel : Nat) : ∀ (ctx : ReadCtx) (st : DwState)
    (chain : List AbbrevTable) (sectionOpen : Bool) (st1 : DwState)
    (chain1 : List AbbrevTable),
    ctx.beg ≤ ctx.ptr →
    (∀ o ∈ chain.map (·.offset), o < read_ctx_get_offset ctx) →
    List.Pairwise (fun a b => b < a) (chain.map (·.offset)) →
    abbrev_table_load_go fuel ctx st chain sectionOpen = (st1, some chain1) →
    List.Pairwise (fun a b => b < a) (chain1.map (·.offset)) := by
  induction fuel with
  | zero => intro ctx st chain so st1 chain1 _ _ _ h; simp [abbrev_table_load_go] at h
  | succ n ih =>
    intro ctx st chain so st1 chain1 hbp hbound hpair h
    rw [abbrev_table_load_go] at h
    split at h
    · obtain ⟨-, h2⟩ := Prod.mk.injEq .. ▸ h
      obtain h3 := Option.some.injEq .. ▸ h2
      subst h3
      exact hpair
    · rcases hscan : abbrev_scan (n + 1) ctx st (2 ^ 64 - 1) (2 ^ 64 - 1) none false
        with sf | ⟨cs, ss, zs, zq⟩ | ⟨cs, ss, code, off, zs, zq⟩
      · rw [hscan] at h; simp at h
      · rw [hscan] at h
        dsimp only at h
        obtain ⟨-, h2⟩ := Prod.mk.injEq .. ▸ h
        obtain h3 := Option.some.injEq .. ▸ h2
        subst h3
        exact hpair
      · rw [hscan] at h
        have hsp := abbrev_scan_gotCode (n + 1) ctx st _ _ _ _ _ _ _ _ _ _ hbp hscan
        dsimp only at h
        split at h
        · obtain ⟨-, h2⟩ := Prod.mk.injEq .. ▸ h
          obtain h3 := Option.some.injEq .. ▸ h2
          subst h3
          exact hpair
        · rcases hpo : abbrev_parse_one n cs
              (if zq ≠ none then message_padding_0 mc_abbrevs ss else ss) code
            with ⟨stp, ovp⟩
          rw [hpo] at h
          cases ovp with
          | none => simp at h
          | some p =>
            obtain ⟨cp, ab⟩ := p
            have hpp := abbrev_parse_one_ctx n cs _ code _ _ _ hpo
            dsimp only at h
            -- the chain passed to the recursive call
            set chainN := if so ∧ ¬zs then chain else ⟨off, []⟩ :: chain with hchainN
            have hboundN : ∀ o ∈ chainN.map (·.offset), o < read_ctx_get_offset cp := by
              intro o ho
              have hoff : read_ctx_get_offset ctx ≤ off := hsp.2.2.2.2.2.1
              have hoff1 : off + 1 ≤ read_ctx_get_offset cs := hsp.2.2.2.2.2.2
              have hmono : read_ctx_get_offset cs ≤ read_ctx_get_offset cp := by
                unfold read_ctx_get_offset
                have h1 := hpp.2.2.1
                have h2 := hpp.2.2.2.2
                omega
              rw [hchainN] at ho
              by_cases hso : so ∧ ¬zs
              · rw [if_pos hso] at ho
                have := hbound o ho
                omega
              · rw [if_neg hso] at ho
                simp only [List.map_cons, List.mem_cons] at ho
                rcases ho with rfl | ho
                · omega
                · have := hbound o ho
                  omega
            have hpairN : List.Pairwise (fun a b => b < a) (chainN.map (·.offset)) := by
              rw [hchainN]
              by_cases hso : so ∧ ¬zs
              · rw [if_pos hso]; exact hpair
              · rw [if_neg hso]
                simp only [List.map_cons, List.pairwise_cons]
                refine ⟨?_, hpair⟩
                intro o ho
                have := hbound o ho
                have hoff : read_ctx_get_offset ctx ≤ off := hsp.2.2.2.2.2.1
                omega
            have hbpp : cp.beg ≤ cp.ptr := by
              have h1 := hpp.2.2.1
              have h2 := hpp.2.2.2.2
              have h3 := hsp.2.2.1
              have h4 := hsp.2.2.2.2.1
              omega
            refine ih cp _ _ _ _ _ hbpp ?_ ?_ h
            · rw [chain_append_abbrev_offsets]
              exact hboundN
            · rw [chain_append_abbrev_offsets]
              exact hpairN

/-- **C7** counterexample: a `.debug_abbrev` section with two tables
(one abbrev each, separated by a zero terminator).  The chain returned
by the loader has section offsets `[6, 0]` — tables are *prepended* as
they are created, so successive tables have strictly *decreasing*
offsets, not increasing ones as the claim states. -/
theorem C7_counterexample :
    ((abbrev_table_load (mk_read_ctx
        [1, 0x11, 0, 0, 0, 0, 1, 0x11, 0, 0, 0] false)
      ⟨default_warning_criteria, 0, []⟩).2.map (·.offset)) = [6, 0] ∧
    ¬ List.Pairwise (fun a b => a < b) [6, 0] := by decide

/-- **C7** (amended): in the chain returned by the loader, successive
tables (following the `next` pointers from the returned head) have
strictly *decreasing* `section_offset`: tables are created at strictly
increasing offsets and prepended to the chain. -/
theorem C7_theorem (ctx : ReadCtx) (st : DwState) (h : ctx.beg ≤ ctx.ptr) :
    List.Pairwise (fun a b => b < a)
      ((abbrev_table_load ctx st).2.map (·.offset)) := by
  unfold abbrev_table_load
  rcases hgo : abbrev_table_load_go (ctx.endp - ctx.ptr + 2) ctx st [] false
    with ⟨st1, oc⟩
  cases oc with
  | none => simp
  | some chain =>
    have hp := load_go_offsets (ctx.endp - ctx.ptr + 2) ctx st [] false st1 chain h
      (by simp) (by simp) hgo
    dsimp only
    rw [List.map_map]
    exact hp

theorem C7_witness :
    List.Pairwise (fun a b => b < a)
      ((abbrev_table_load (mk_read_ctx
          [1, 0x11, 0, 0, 0, 0, 1, 0x11, 0, 0, 0] false)
        ⟨default_warning_criteria, 0, []⟩).2.map (·.offset)) :=
  C7_theorem (mk_read_ctx [1, 0x11, 0, 0, 0, 0, 1, 0x11, 0, 0, 0] false)
    ⟨default_warning_criteria, 0, []⟩ (by decide)

/-- A concrete failing input for the dead "DIE has children but no
DW_AT_sibling" warning: a DIE chain `[1, 0, 2, 0]` against an abbrev
table where code 1 `has_children = true` (with an empty child chain)
and code 2 does not.  DIE 2 follows a DIE whose abbreviation has
children and that supplied no `DW_AT_sibling`, so the message text
present in the code demands the suboptimal "This DIE had children, but
no DW_AT_sibling attribute" warning at DIE 2's iteration; the walk
succeeds (status 1) but the log contains only the empty-children
message — the warning is never printed because `prev_abbrev` is
initialized to `NULL` and never assigned. -/
theorem die_children_no_sibling_never_fires_example :
    (read_die_chain 100 0 none false false
      ⟨⟨[1, 0, 2, 0], false, 0, 4, 0⟩, [], [],
        ⟨0, [⟨1, 0x11, true, false, [⟨3, 0, 0⟩]⟩, ⟨2, 0x12, false, false, [⟨8, 0, 0⟩]⟩]⟩,
        some [], none, ⟨default_warning_criteria, 0, []⟩⟩).2 = 1 ∧
    (read_die_chain 100 0 none false false
      ⟨⟨[1, 0, 2, 0], false, 0, 4, 0⟩, [], [],
        ⟨0, [⟨1, 0x11, true, false, [⟨3, 0, 0⟩]⟩, ⟨2, 0x12, false, false, [⟨8, 0, 0⟩]⟩]⟩,
        some [], none, ⟨default_warning_criteria, 0, []⟩⟩).1.st.log
      = [(false, .dieChainEmptyChildren)] := by decide

/-- **C8** (code bug): `.debug_abbrev` loads fine, but the
`.debug_info` structural check fails fatally (the CU's address size is
5), so it returns the null CU list — and `process_file` then still
invokes the aranges and pubnames checkers with that null chain;
`check_pubnames_structural`'s `assert (cu_chain)` fails and the run
aborts (`none`), where the claim says those checks are simply not
performed. -/
theorem C8_theorem :
    (check_debug_info_structural 100
        (mk_read_ctx [7, 0, 0, 0, 2, 0, 0, 0, 0, 0, 5] false)
        ((abbrev_table_load (mk_read_ctx [1, 0x11, 0x00, 0, 0] false)
          ⟨default_warning_criteria, 0, []⟩).2)
        (some [0]) ⟨default_warning_criteria, 0, []⟩).1 = [] ∧
    process_file (some [1, 0x11, 0x00, 0, 0])
        (some [7, 0, 0, 0, 2, 0, 0, 0, 0, 0, 5])
        none
        (some [10, 0, 0, 0, 2, 0, 0, 0, 0, 0, 0, 0, 0, 0])
        (some [0]) false false ⟨default_warning_criteria, 0, []⟩ = none := by decide

theorem cns_verror {b : Bool} {id : MsgId} {st : DwState}
    (hne : id ≠ MsgId.dieChildrenNoSibling)
    (h : (b, MsgId.dieChildrenNoSibling) ∈ (verror id st).log) :
    (b, MsgId.dieChildrenNoSibling) ∈ st.log := by
  simp only [verror, List.mem_append, List.mem_singleton, Prod.mk.injEq] at h
  rcases h with h | ⟨-, h2⟩
  · exact h
  · exact absurd h2.symm hne

theorem cns_vwarning {b : Bool} {id : MsgId} {st : DwState}
    (hne : id ≠ MsgId.dieChildrenNoSibling)
    (h : (b, MsgId.dieChildrenNoSibling) ∈ (vwarning id st).log) :
    (b, MsgId.dieChildrenNoSibling) ∈ st.log := by
  simp only [vwarning, List.mem_append, List.mem_singleton, Prod.mk.injEq] at h
  rcases h with h | ⟨-, h2⟩
  · exact h
  · exact absurd h2.symm hne

theorem cns_wr_error {b : Bool} {id : MsgId} {st : DwState}
    (hne : id ≠ MsgId.dieChildrenNoSibling)
    (h : (b, MsgId.dieChildrenNoSibling) ∈ (wr_error id st).log) :
    (b, MsgId.dieChildrenNoSibling) ∈ st.log := cns_verror hne h

theorem cns_vmessage {b : Bool} {cat : Nat} {id : MsgId} {st : DwState}
    (hne : id ≠ MsgId.dieChildrenNoSibling)
    (h : (b, MsgId.dieChildrenNoSibling) ∈ (vmessage cat id st).log) :
    (b, MsgId.dieChildrenNoSibling) ∈ st.log := by
  unfold vmessage at h
  split at h
  · split at h
    · exact cns_verror hne h
    · exact cns_vwarning hne h
  · exact h

theorem cns_message {b : Bool} {cat : Nat} {id : MsgId} {st : DwState}
    (hne : id ≠ MsgId.dieChildrenNoSibling)
    (h : (b, MsgId.dieChildrenNoSibling) ∈ (message cat id st).log) :
    (b, MsgId.dieChildrenNoSibling) ∈ st.log := cns_vmessage hne h

theorem cns_format_leb {b : Bool} {s : Int} {st : DwState}
    (h : (b, MsgId.dieChildrenNoSibling) ∈ (format_leb128_message s st).log) :
    (b, MsgId.dieChildrenNoSibling) ∈ st.log := by
  unfold format_leb128_message at h
  dsimp only at h
  repeat' split at h
  all_goals first
    | exact h
    | exact cns_wr_error (by decide) h
    | exact cns_message (by decide) h

theorem cns_checked_uleb {b : Bool} {ctx : ReadCtx} {st : DwState}
    (h : (b, MsgId.dieChildrenNoSibling) ∈ (checked_read_uleb128 ctx st).2.2.log) :
    (b, MsgId.dieChildrenNoSibling) ∈ st.log := by
  unfold checked_read_uleb128 at h
  exact cns_format_leb h

theorem cns_checked_sleb {b : Bool} {ctx : ReadCtx} {st : DwState}
    (h : (b, MsgId.dieChildrenNoSibling) ∈ (checked_read_sleb128 ctx st).2.2.log) :
    (b, MsgId.dieChildrenNoSibling) ∈ st.log := by
  unfold checked_read_sleb128 at h
  exact cns_format_leb h

theorem cns_record_ref {b : Bool} {cuOff len : Nat} {refs : List Ref}
    {locs : Option (List Ref)} {addr who : Nat} {loc : Bool} {st : DwState}
    (h : (b, MsgId.dieChildrenNoSibling)
      ∈ (record_ref cuOff len refs locs addr who loc st).2.2.log) :
    (b, MsgId.dieChildrenNoSibling) ∈ st.log := by
  unfold record_ref at h
  repeat' split at h
  all_goals first
    | exact h
    | exact cns_wr_error (by decide) h


theorem cns_read_block_length {b : Bool} {width : Nat} {w : WalkSt}
    (h : (b, MsgId.dieChildrenNoSibling) ∈ (read_block_length width w).1.st.log) :
    (b, MsgId.dieChildrenNoSibling) ∈ w.st.log := by
  unfold read_block_length at h
  split at h
  · rcases hcr : checked_read_uleb128 w.ctx w.st with ⟨c1, ov, st1⟩
    rw [hcr] at h
    cases ov <;> try dsimp only at h <;>
      exact cns_checked_uleb (by rw [hcr]; exact h)
  · rcases hrv : read_ctx_read_var w.ctx width with _ | ⟨c1, v⟩ <;> rw [hrv] at h
    · dsimp only at h
      exact cns_wr_error (by decide) h
    · dsimp only at h
      exact h

theorem cns_die_attr_form {b : Bool} (cuOffset die_off : Nat) (strings : Option (List Nat))
    (dwarf64 addr64 : Bool) (a : AbbrevAttrib) (f : Nat) (w : WalkSt) (sibling : Nat)
    (h : (b, MsgId.dieChildrenNoSibling)
      ∈ (die_attr_form cuOffset die_off strings dwarf64 addr64 a f w sibling).1.st.log) :
    (b, MsgId.dieChildrenNoSibling) ∈ w.st.log := by
  unfold die_attr_form at h
  by_cases h1 : f = DW_FORM_strp
  · rw [if_pos h1] at h
    rcases hr : read_ctx_read_offset w.ctx dwarf64 with _ | ⟨c1, addr⟩ <;> rw [hr] at h
    · dsimp only at h
      exact cns_wr_error (by decide) h
    · dsimp only at h
      cases strings with
      | none =>
        dsimp only at h
        exact cns_wr_error (by decide) h
      | some strs =>
        dsimp only at h
        split at h <;> try dsimp only at h
        · exact cns_wr_error (by decide) h
        · exact h
  rw [if_neg h1] at h
  by_cases h2 : f = DW_FORM_string
  · rw [if_pos h2] at h
    rcases hr : skip_form_string w.ctx with _ | c1 <;> rw [hr] at h <;> try dsimp only at h
    · exact cns_wr_error (by decide) h
    · exact h
  rw [if_neg h2] at h
  by_cases h3 : f = DW_FORM_addr ∨ f = DW_FORM_ref_addr
  · rw [if_pos h3] at h
    rcases hr : read_ctx_read_offset w.ctx addr64 with _ | ⟨c1, addr⟩ <;> rw [hr] at h
    · dsimp only at h
      exact cns_wr_error (by decide) h
    · dsimp only at h
      split at h <;> try dsimp only at h
      · exact @cns_record_ref b cuOffset (c1.endp - c1.beg) w.cuRefs w.locRefs
          addr die_off false w.st h
      · exact h
  rw [if_neg h3] at h
  by_cases h4 : f = DW_FORM_udata ∨ f = DW_FORM_ref_udata
  · rw [if_pos h4] at h
    rcases hcr : checked_read_uleb128 w.ctx w.st with ⟨c1, ov, st1⟩
    rw [hcr] at h
    cases ov with
    | none =>
      dsimp only at h
      exact cns_checked_uleb (by rw [hcr]; exact h)
    | some v =>
      dsimp only at h
      split at h <;> try dsimp only at h
      · exact cns_checked_uleb (by rw [hcr]; exact h)
      · split at h <;> try dsimp only at h
        · have hst1 : (b, MsgId.dieChildrenNoSibling) ∈ st1.log := cns_record_ref h
          exact cns_checked_uleb (by rw [hcr]; exact hst1)
        · exact cns_checked_uleb (by rw [hcr]; exact h)
  rw [if_neg h4] at h
  by_cases h5 : f = DW_FORM_flag ∨ f = DW_FORM_data1 ∨ f = DW_FORM_ref1
  · rw [if_pos h5] at h
    rcases hr : read_ctx_read_ubyte w.ctx with _ | ⟨c1, v⟩ <;> rw [hr] at h
    · dsimp only at h
      exact cns_wr_error (by decide) h
    · dsimp only at h
      split at h <;> try dsimp only at h
      · exact h
      · split at h <;> try dsimp only at h
        · exact @cns_record_ref b _ _ _ _ _ _ _ w.st h
        · exact h
  rw [if_neg h5] at h
  by_cases h6 : f = DW_FORM_data2 ∨ f = DW_FORM_ref2
  · rw [if_pos h6] at h
    rcases hr : read_ctx_read_2ubyte w.ctx with _ | ⟨c1, v⟩ <;> rw [hr] at h
    · dsimp only at h
      exact cns_wr_error (by decide) h
    · dsimp only at h
      split at h <;> try dsimp only at h
      · exact h
      · split at h <;> try dsimp only at h
        · exact @cns_record_ref b _ _ _ _ _ _ _ w.st h
        · exact h
  rw [if_neg h6] at h
  by_cases h7 : f = DW_FORM_data4 ∨ f = DW_FORM_ref4
  · rw [if_pos h7] at h
    rcases hr : read_ctx_read_4ubyte w.ctx with _ | ⟨c1, v⟩ <;> rw [hr] at h
    · dsimp only at h
      exact cns_wr_error (by decide) h
    · dsimp only at h
      split at h <;> try dsimp only at h
      · exact h
      · split at h <;> try dsimp only at h
        · exact @cns_record_ref b _ _ _ _ _ _ _ w.st h
        · exact h
  rw [if_neg h7] at h
  by_cases h8 : f = DW_FORM_data8 ∨ f = DW_FORM_ref8
  · rw [if_pos h8] at h
    rcases hr : read_ctx_read_8ubyte w.ctx with _ | ⟨c1, v⟩ <;> rw [hr] at h
    · dsimp only at h
      exact cns_wr_error (by decide) h
    · dsimp only at h
      split at h <;> try dsimp only at h
      · exact h
      · split at h <;> try dsimp only at h
        · exact @cns_record_ref b _ _ _ _ _ _ _ w.st h
        · exact h
  rw [if_neg h8] at h
  by_cases h9 : f = DW_FORM_sdata
  · rw [if_pos h9] at h
    rcases hcr : checked_read_sleb128 w.ctx w.st with ⟨c1, ov, st1⟩
    rw [hcr] at h
    cases ov <;> try dsimp only at h <;>
      exact cns_checked_sleb (by rw [hcr]; exact h)
  rw [if_neg h9] at h
  by_cases h10 : f = DW_FORM_block ∨ f = DW_FORM_block1 ∨ f = DW_FORM_block2
      ∨ f = DW_FORM_block4
  · rw [if_pos h10] at h
    generalize hbl : read_block_length (if f = DW_FORM_block then 0 else if f = DW_FORM_block1 then 1 else if f = DW_FORM_block2 then 2 else 4) w = blp at h
    rcases blp with ⟨w1, ov⟩
    cases ov with
    | none =>
      dsimp only at h
      exact cns_read_block_length (by rw [hbl]; exact h)
    | some length =>
      dsimp only at h
      rcases hs : read_ctx_skip w1.ctx length with _ | c2 <;> rw [hs] at h <;>
          dsimp only at h
      · have h2 : (b, MsgId.dieChildrenNoSibling) ∈ w1.st.log :=
          cns_wr_error (by decide) h
        exact cns_read_block_length (by rw [hbl]; exact h2)
      · exact cns_read_block_length (by rw [hbl]; exact h)
  rw [if_neg h10] at h
  by_cases h11 : f = DW_FORM_indirect
  · rw [if_pos h11] at h
    dsimp only at h
    exact cns_wr_error (by decide) h
  rw [if_neg h11] at h
  dsimp only at h
  exact cns_wr_error (by decide) h

theorem cns_die_attrs {b : Bool} (cuOffset die_off : Nat) (strings : Option (List Nat))
    (dwarf64 addr64 : Bool) :
    ∀ (attribs : List AbbrevAttrib) (w : WalkSt) (sibling : Nat),
    (b, MsgId.dieChildrenNoSibling)
      ∈ (die_attrs cuOffset die_off strings dwarf64 addr64 attribs w sibling).1.st.log →
    (b, MsgId.dieChildrenNoSibling) ∈ w.st.log := by
  intro attribs
  induction attribs with
  | nil =>
    intro w sibling h
    simpa [die_attrs] using h
  | cons a rest ih =>
    intro w sibling h
    rw [die_attrs] at h
    split at h
    · exact h
    · dsimp only at h
      by_cases hind : a.form = DW_FORM_indirect
      · rw [if_pos hind] at h
        rcases hcr : checked_read_uleb128 w.ctx w.st with ⟨c1, ov, st1⟩
        rw [hcr] at h
        cases ov with
        | none =>
          dsimp only at h
          exact cns_checked_uleb (by rw [hcr]; exact h)
        | some v =>
          dsimp only at h
          have hback : ∀ hx : (b, MsgId.dieChildrenNoSibling) ∈ (if a.name = DW_AT_sibling then (if check_sibling_form v = -1 then message (mc_die_rel_sib ||| mc_impact_2) MsgId.dieSibIndirectRefAddr st1 else if check_sibling_form v = -2 then wr_error MsgId.dieSibIndirectBadForm st1 else st1) else st1).log, (b, MsgId.dieChildrenNoSibling) ∈ st1.log := by
            intro hx
            repeat' split at hx
            all_goals first
              | exact hx
              | exact cns_message (by decide) hx
              | exact cns_wr_error (by decide) hx
          by_cases hval : attrib_form_valid v = true
          · rw [if_neg (by simpa using hval)] at h
            dsimp only at h
            rcases hda : die_attr_form cuOffset die_off strings dwarf64 addr64 a v { w with ctx := c1, st := if a.name = DW_AT_sibling then (if check_sibling_form v = -1 then message (mc_die_rel_sib ||| mc_impact_2) MsgId.dieSibIndirectRefAddr st1 else if check_sibling_form v = -2 then wr_error MsgId.dieSibIndirectBadForm st1 else st1) else st1 } sibling with ⟨w2, s1, ok⟩
            rw [hda] at h
            cases ok with
            | false =>
              dsimp only at h
              have h2 := cns_die_attr_form cuOffset die_off strings dwarf64 addr64 a v _ sibling (by rw [hda]; exact h)
              exact cns_checked_uleb (by rw [hcr]; exact hback h2)
            | true =>
              dsimp only at h
              have h2 := ih w2 s1 h
              have h3 := cns_die_attr_form cuOffset die_off strings dwarf64 addr64 a v _ sibling (by rw [hda]; exact h2)
              exact cns_checked_uleb (by rw [hcr]; exact hback h3)
          · rw [if_pos (by simpa using hval)] at h
            dsimp only at h
            have h2 : (b, MsgId.dieChildrenNoSibling) ∈ st1.log :=
              cns_wr_error (by decide) h
            exact cns_checked_uleb (by rw [hcr]; exact h2)
      · rw [if_neg hind] at h
        dsimp only at h
        rcases hda : die_attr_form cuOffset die_off strings dwarf64 addr64 a a.form
            w sibling with ⟨w2, s1, ok⟩
        rw [hda] at h
        cases ok with
        | false =>
          dsimp only at h
          exact cns_die_attr_form cuOffset die_off strings dwarf64 addr64 a a.form w
            sibling (by rw [hda]; exact h)
        | true =>
          dsimp only at h
          have h2 := ih w2 s1 h
          exact cns_die_attr_form cuOffset die_off strings dwarf64 addr64 a a.form w
            sibling (by rw [hda]; exact h2)

theorem cns_die_chain_post {b : Bool} {w : WalkSt} {sibling : Nat} {gotDie : Bool}
    (h : (b, MsgId.dieChildrenNoSibling) ∈ (die_chain_post w sibling gotDie).1.st.log) :
    (b, MsgId.dieChildrenNoSibling) ∈ w.st.log := by
  unfold die_chain_post at h
  dsimp only at h
  split at h
  · exact cns_wr_error (by decide) h
  · exact h

theorem cns_read_die_chain_go {b : Bool} (cuOffset : Nat) (strings : Option (List Nat))
    (dwarf64 addr64 : Bool) :
    ∀ (fuel : Nat) (w : WalkSt) (gotDie : Bool) (sibling : Nat),
    (b, MsgId.dieChildrenNoSibling)
      ∈ (read_die_chain_go fuel cuOffset strings dwarf64 addr64 w gotDie sibling none).1.st.log →
    (b, MsgId.dieChildrenNoSibling) ∈ w.st.log := by
  intro fuel
  induction fuel with
  | zero =>
    intro w gotDie sibling h
    simpa [read_die_chain_go] using h
  | succ fuel ih =>
    intro w gotDie sibling h
    rw [read_die_chain_go] at h
    split at h
    · exact cns_die_chain_post h
    · dsimp only at h
      rcases hcr : checked_read_uleb128 w.ctx w.st with ⟨c1, ov, st1⟩
      rw [hcr] at h
      cases ov with
      | none =>
        dsimp only at h
        exact cns_checked_uleb (by rw [hcr]; exact h)
      | some code =>
        dsimp only at h
        have hback : (b, MsgId.dieChildrenNoSibling) ∈ (if sibling ≠ 0 then (if code = 0 then wr_error MsgId.dieLastSiblingHasSibling st1 else if sibling ≠ read_ctx_get_offset w.ctx then wr_error MsgId.dieSiblingMismatch st1 else st1) else st1).log → (b, MsgId.dieChildrenNoSibling) ∈ st1.log := by
          intro hx
          repeat' split at hx
          all_goals first
            | exact hx
            | exact cns_wr_error (by decide) hx
        split at h
        · have h2 := cns_die_chain_post h
          dsimp only at h2
          have h3 : (b, MsgId.dieChildrenNoSibling) ∈ st1.log := by
            repeat' split at h2
            all_goals
              first
                | exact h2
                | exact cns_wr_error (by decide) h2
                | exact cns_wr_error (by decide) (cns_wr_error (by decide) h2)
          exact cns_checked_uleb (by rw [hcr]; exact h3)
        · split at h
          · dsimp only at h
            exact cns_checked_uleb (by
              rw [hcr]
              exact hback (@cns_wr_error b MsgId.dieUnknownAbbrevCode _ (by decide) h))
          · split at h
            · rename_i w2 snd heq
              have h2 := cns_die_attrs cuOffset _ strings dwarf64 addr64 _ _ _
                (by rw [heq]; exact h)
              exact cns_checked_uleb (by rw [hcr]; exact hback h2)
            · rename_i w2 sibling2 heq
              have hstep : (b, MsgId.dieChildrenNoSibling) ∈ w2.st.log →
                  (b, MsgId.dieChildrenNoSibling) ∈ w.st.log := by
                intro hx
                have h3 := cns_die_attrs cuOffset _ strings dwarf64 addr64 _ _ _
                  (by rw [heq]; exact hx)
                exact cns_checked_uleb (by rw [hcr]; exact hback h3)
              split at h
              · rcases heq2 : read_die_chain_go fuel cuOffset strings dwarf64 addr64
                    w2 false 0 none with ⟨w3, childSt⟩
                rw [heq2] at h
                dsimp only at h
                split at h
                · dsimp only at h
                  exact hstep (ih w2 false 0 (by rw [heq2]; exact h))
                · have h2 := ih _ true sibling2 h
                  dsimp only at h2
                  have h3 : (b, MsgId.dieChildrenNoSibling) ∈ w3.st.log := by
                    split at h2
                    · exact cns_message (by decide) h2
                    · exact h2
                  exact hstep (ih w2 false 0 (by rw [heq2]; exact h3))
              · exact hstep (ih w2 true sibling2 h)

/-- **C4** (code bug): the source contains a check meant to warn when a
DIE whose abbreviation has children is not followed by a
`DW_AT_sibling` attribute, but the guarding variable `prev_abbrev` is
initialized to `NULL` and never assigned, so the warning is dead code:
for every fuel bound, CU offset, string table, format flags and walker
state, any `dieChildrenNoSibling` entry in the log after
`read_die_chain` was already present in the log before the walk — the
walker itself never emits it, on any input. -/
theorem C4_theorem (fuel cuOffset : Nat) (strings : Option (List Nat))
    (dwarf64 addr64 : Bool) (w : WalkSt) (b : Bool)
    (h : (b, MsgId.dieChildrenNoSibling)
      ∈ (read_die_chain fuel cuOffset strings dwarf64 addr64 w).1.st.log) :
    (b, MsgId.dieChildrenNoSibling) ∈ w.st.log :=
  cns_read_die_chain_go cuOffset strings dwarf64 addr64 fuel w false 0 h

theorem C4_witness :
    (false, MsgId.dieChildrenNoSibling) ∈
      (⟨⟨[], false, 0, 0, 0⟩, [], [], ⟨0, []⟩, none, none,
        ⟨default_warning_criteria, 0,
          [(false, MsgId.dieChildrenNoSibling)]⟩⟩ : WalkSt).st.log :=
  C4_theorem 1 0 none false false
    ⟨⟨[], false, 0, 0, 0⟩, [], [], ⟨0, []⟩, none, none,
      ⟨default_warning_criteria, 0,
        [(false, MsgId.dieChildrenNoSibling)]⟩⟩ false (by decide)
